import Mathlib

/-!
Verification development for the conversational tool-calling orchestrator of the
Evolution Todo repository (Phase 3/4 backend: `agent.py`, `tool_validation.py`,
`intent_classifier.py`, `mcp_server.py`, `routes/chat.py`).

The Python code is shallowly embedded: JSON-ish values become the `Value`
inductive, Python dicts of tool arguments become ordered association lists
(`Args`), exceptions become `Except String`, the database session becomes an
explicit state record, and the two OpenAI chat-completion calls become an
oracle function passed to the orchestrator.
-/

set_option maxHeartbeats 1000000

namespace TodoChat

/-! ## JSON-like values (arguments decoded by `json.loads`) -/

/-- A scalar Python/JSON value (`None` is `null`). -/
inductive Prim where
  | null : Prim
  | str : String → Prim
  | int : Int → Prim
  | bool : Bool → Prim
deriving Repr, DecidableEq

/-- A Python/JSON value as it appears in tool arguments: a scalar, an array
of scalars, or a one-level object. This flat universe covers every shape the
tool contracts declare and the embedded code paths inspect (tags are arrays
of strings, analytics breakdowns are objects of numbers); deeper nesting
never reaches these functions. -/
inductive Value where
  | null : Value
  | str : String → Value
  | int : Int → Value
  | bool : Bool → Value
  | vlist : List Prim → Value
  | obj : List (String × Prim) → Value
deriving Repr, DecidableEq

/-- Python truthiness (`if value:`) for scalars. -/
def ptruthy : Prim → Bool
  | .null => false
  | .str s => !(s == "")
  | .int n => !(n == 0)
  | .bool b => b

/-- Python truthiness (`if value:`) for the embedded values. -/
def truthy : Value → Bool
  | .null => false
  | .str s => !(s == "")
  | .int n => !(n == 0)
  | .bool b => b
  | .vlist xs => !xs.isEmpty
  | .obj xs => !xs.isEmpty

/-- Python `==` on scalars (the code never compares across numeric types, so
the structural reading is exact). -/
def pbeq : Prim → Prim → Bool
  | .null, .null => true
  | .str a, .str b => a == b
  | .int a, .int b => a == b
  | .bool a, .bool b => a == b
  | _, _ => false

def plistBeq : List Prim → List Prim → Bool
  | [], [] => true
  | a :: as, b :: bs => pbeq a b && plistBeq as bs
  | _, _ => false

def pobjBeq : List (String × Prim) → List (String × Prim) → Bool
  | [], [] => true
  | (k, a) :: as, (l, b) :: bs => k == l && pbeq a b && pobjBeq as bs
  | _, _ => false

/-- Python `==` on the embedded values. -/
def vbeq : Value → Value → Bool
  | .null, .null => true
  | .str a, .str b => a == b
  | .int a, .int b => a == b
  | .bool a, .bool b => a == b
  | .vlist a, .vlist b => plistBeq a b
  | .obj a, .obj b => pobjBeq a b
  | _, _ => false

/-! ## Tool-argument dictionaries

Python dict semantics over an ordered association list: lookup returns the
(unique) binding, assignment overwrites in place, deletion removes the key.
On well-formed dicts (no duplicate keys, which `json.loads` guarantees) these
agree with CPython exactly. -/

/-- Tool arguments: an ordered string-keyed dictionary. -/
abbrev Args := List (String × Value)

/-- `d[k]` / `d.get(k)`: first binding of the key. -/
def aget : Args → String → Option Value
  | [], _ => none
  | (k, v) :: rest, key => if k = key then some v else aget rest key

/-- `d[k] = v`: overwrite in place, append if absent. -/
def aset (a : Args) (k : String) (v : Value) : Args :=
  match aget a k with
  | some _ => a.map (fun p => if p.1 = k then (k, v) else p)
  | none => a ++ [(k, v)]

/-- `del d[k]`. -/
def adel (a : Args) (k : String) : Args := a.filter (fun p => decide (p.1 ≠ k))

/-- The keys of the dict are distinct (always true for decoded JSON objects). -/
def NodupKeys (a : Args) : Prop := (a.map Prod.fst).Nodup

/-! ## ISO-date handling (`ToolValidator._validate_iso_date`)

Models `datetime.fromisoformat` / `datetime.isoformat` on the formats the
chatbot exchanges: `YYYY-MM-DD`, optionally followed by a separator and
`HH:MM[:SS]` with an optional `+HH:MM`/`-HH:MM` offset. Fractional seconds
and more exotic separators accepted by newer CPython are outside the model. -/

def isDig (c : Char) : Bool := c.isDigit

/-- Numeric value of two digit characters. -/
def d2 (a b : Char) : Nat := (a.toNat - 48) * 10 + (b.toNat - 48)

/-- Numeric value of four digit characters. -/
def d4 (a b c d : Char) : Nat := ((a.toNat - 48) * 10 + (b.toNat - 48)) * 100 + d2 c d

def isLeap (y : Nat) : Bool := (y % 4 == 0 && !(y % 100 == 0)) || (y % 400 == 0)

def daysInMonth (y m : Nat) : Nat :=
  if m == 2 then (if isLeap y then 29 else 28)
  else if m == 4 || m == 6 || m == 9 || m == 11 then 30
  else 31

/-- A valid `YYYY-MM-DD` calendar date, exactly ten characters. -/
def checkDate10 : List Char → Bool
  | [y1, y2, y3, y4, s1, mo1, mo2, s2, da1, da2] =>
    isDig y1 && isDig y2 && isDig y3 && isDig y4 && s1 == '-' && s2 == '-' &&
    isDig mo1 && isDig mo2 && isDig da1 && isDig da2 &&
    decide (1 ≤ d2 mo1 mo2) && decide (d2 mo1 mo2 ≤ 12) &&
    decide (1 ≤ d2 da1 da2) &&
    decide (d2 da1 da2 ≤ daysInMonth (d4 y1 y2 y3 y4) (d2 mo1 mo2))
  | _ => false

/-- A UTC-offset suffix: empty, or `±HH:MM`. -/
def checkOffsetChars : List Char → Bool
  | [] => true
  | [sg, h1, h2, c, m1, m2] =>
    (sg == '+' || sg == '-') && isDig h1 && isDig h2 && c == ':' &&
    isDig m1 && isDig m2 && decide (d2 h1 h2 < 24) && decide (d2 m1 m2 < 60)
  | _ => false

/-- Split a time suffix `HH:MM[:SS][offset]` into the `HH:MM` characters, the
seconds characters (`:00` inserted when absent, as `datetime.isoformat` does),
and the offset characters. `none` when the time is malformed. -/
def timeParts : List Char → Option (List Char × List Char × List Char)
  | h1 :: h2 :: ':' :: m1 :: m2 :: rest =>
    if isDig h1 && isDig h2 && isDig m1 && isDig m2 &&
       decide (d2 h1 h2 < 24) && decide (d2 m1 m2 < 60) then
      match rest with
      | ':' :: s1 :: s2 :: rest2 =>
        if isDig s1 && isDig s2 && decide (d2 s1 s2 < 60) && checkOffsetChars rest2
        then some ([h1, h2, ':', m1, m2], [':', s1, s2], rest2) else none
      | _ =>
        if checkOffsetChars rest then some ([h1, h2, ':', m1, m2], [':', '0', '0'], rest)
        else none
    else none
  | _ => none

/-- Does `datetime.fromisoformat` accept the string (within the modelled
formats)? -/
def isoOKChars (cs : List Char) : Bool :=
  checkDate10 (cs.take 10) &&
  (match cs.drop 10 with
   | [] => true
   | sep :: t => (sep == 'T' || sep == ' ' || sep == 't') && (timeParts t).isSome)

/-- `fromisoformat` + `isoformat` for a string without `T`: a bare date gets
`T00:00:00` appended; a space-separated date-time is canonicalised. -/
def canonicalNoT (cs : List Char) : Option (List Char) :=
  if checkDate10 (cs.take 10) then
    match cs.drop 10 with
    | [] => some (cs.take 10 ++ 'T' :: ('0' :: '0' :: ':' :: '0' :: '0' :: ':' :: '0' :: '0' :: []))
    | sep :: t =>
      if sep == ' ' then
        match timeParts t with
        | some (hm, sec, off) => some (cs.take 10 ++ 'T' :: (hm ++ sec ++ off))
        | none => none
      else none
  else none

/-- `date_value.replace("Z", "+00:00")`. -/
def replaceZchars : List Char → List Char
  | [] => []
  | c :: cs =>
    if c == 'Z' then '+' :: '0' :: '0' :: ':' :: '0' :: '0' :: replaceZchars cs
    else c :: replaceZchars cs

/-- `date_value in ["null", "none", ""]`. -/
def dateSentinel : Value → Bool
  | .str s => s == "null" || s == "none" || s == ""
  | _ => false

def hasCharT (s : String) : Bool := s.data.contains 'T'

/-- `ToolValidator._validate_iso_date`, lifted to argument values: falsy or
sentinel input gives `None`; a string containing `T` is kept verbatim when it
parses (after `Z` → `+00:00`) and dropped to `None` otherwise; a string
without `T` is canonicalised via `isoformat`; a non-string value is returned
unchanged (the `isinstance` fallthrough). -/
def validateIsoDateV (v : Value) : Value :=
  if !truthy v || dateSentinel v then .null
  else
    match v with
    | .str s =>
      if hasCharT s then (if isoOKChars (replaceZchars s.data) then .str s else .null)
      else
        match canonicalNoT s.data with
        | some cs => .str (String.mk cs)
        | none => .null
    | w => w

/-! ## `ToolValidator` (tool_validation.py) -/

def VALID_PRIORITIES : List String := ["low", "medium", "high", "none"]
def VALID_RECURRENCE : List String := ["daily", "weekly", "monthly"]

/-- `priority in cls.VALID_PRIORITIES`. -/
def isValidPriority : Value → Bool
  | .str s => s == "low" || s == "medium" || s == "high" || s == "none"
  | _ => false

/-- `recurrence in cls.VALID_RECURRENCE`. -/
def isValidRecurrence : Value → Bool
  | .str s => s == "daily" || s == "weekly" || s == "monthly"
  | _ => false

/-- `recurrence in ["none", None, "", "null"]`. -/
def recSentinel : Value → Bool
  | .null => true
  | .str s => s == "none" || s == "" || s == "null"
  | _ => false

/-- `value is None`. -/
def notNull : Value → Bool
  | .null => false
  | _ => true

/-- `value is None or value == "" or (isinstance(value, list) and len(value) == 0)`. -/
def isNullOrEmptyUpd : Value → Bool
  | .null => true
  | .str s => s == ""
  | .vlist xs => xs.isEmpty
  | _ => false

/-- `"description" not in sanitized or sanitized["description"] is None or
sanitized["description"] == ""`. -/
def descMissing (a : Args) : Bool :=
  match aget a "description" with
  | none => true
  | some .null => true
  | some (.str s) => s == ""
  | some _ => false

/-- `str.lower` (ASCII case, which is all the keyword matching relies on). -/
def lowerStr (s : String) : String := String.mk (s.data.map Char.toLower)

/-- Whitespace as recognised by `str.strip()` (the characters the chatbot's
inputs can actually contain). -/
def isSpaceChar (c : Char) : Bool := c == ' ' || c == '\t' || c == '\n' || c == '\r'

/-- `str.strip()`. -/
def stripChars (cs : List Char) : List Char :=
  ((cs.dropWhile isSpaceChar).reverse.dropWhile isSpaceChar).reverse

/-- `str.strip()` on strings. -/
def pyStrip (s : String) : String := String.mk (stripChars s.data)

/-- `str.replace(needle, "")` for a non-empty needle `n0 :: ntl`: delete every
occurrence, scanning left to right. The fuel argument (instantiated with the
haystack length, an upper bound on the number of scanning steps) only makes
the recursion structural. -/
def eatKeyword (n0 : Char) (ntl : List Char) : Nat → List Char → List Char
  | 0, _ => []
  | _, [] => []
  | fuel + 1, c :: cs =>
    if (n0 :: ntl).isPrefixOf (c :: cs) then
      eatKeyword n0 ntl fuel (cs.drop ntl.length)
    else
      c :: eatKeyword n0 ntl fuel cs

/-- `str.replace(needle, "")` on strings (identity for an empty needle, which
the keyword list never contains). -/
def removeAll (s : String) (needle : String) : String :=
  match needle.data with
  | [] => s
  | n0 :: ntl => String.mk (eatKeyword n0 ntl s.data.length s.data)

/-- `str.capitalize()`: first character upper-cased, the rest lower-cased. -/
def capitalizeStr (s : String) : String :=
  match s.data with
  | [] => ""
  | c :: cs => String.mk (c.toUpper :: cs.map Char.toLower)

/-- `len(s.strip()) > 0` as used below. -/
def stripNonempty (s : String) : Bool := !(pyStrip s == "")

def REMOVE_KEYWORDS : List String :=
  ["add", "create", "new", "task", "remind me to", "remember to"]

/-- `ToolValidator._generate_description`. Raises (`AttributeError`) when the
title is a truthy non-string, exactly as `title.strip()` would. -/
def generateDescription (title : Value) (userMessage : String) : Except String String :=
  ((if truthy title then
    match title with
    | .str s => if pyStrip s == "" then .ok none else .ok (some ("Task: " ++ pyStrip s))
    | _ => .error "AttributeError"
  else .ok none : Except String (Option String))).bind fun fromTitle =>
  match fromTitle with
  | some d => .ok d
  | none =>
    if !(userMessage == "") && stripNonempty userMessage then
      let cleaned := REMOVE_KEYWORDS.foldl (fun acc kw => removeAll acc kw)
        (lowerStr userMessage)
      let cleaned := pyStrip cleaned
      if !(cleaned == "") then .ok (capitalizeStr cleaned) else .ok "Task to be completed"
    else .ok "Task to be completed"

/-- Python `tag and tag.strip()` filtering of a tags list; raises
(`AttributeError`) on a truthy non-string element. -/
def filterTags : List Prim → Except String (List Prim)
  | [] => .ok []
  | t :: ts =>
    if ptruthy t then
      match t with
      | .str s =>
        (filterTags ts).bind fun rest =>
          .ok (if pyStrip s == "" then rest else .str s :: rest)
      | _ => .error "AttributeError"
    else filterTags ts

/-- CRITICAL FIX 1 of `validate_add_task`: description must never be null. -/
def addFix1 (args : Args) (userMessage : String) : Except String Args :=
  if descMissing args then
    (generateDescription ((aget args "title").getD (.str "")) userMessage).bind fun d =>
      .ok (aset args "description" (.str d))
  else .ok args

/-- CRITICAL FIX 2 of `validate_add_task`: recurrence_pattern handling. -/
def addFix2 (s1 : Args) : Args :=
  match aget s1 "recurrence_pattern" with
  | none => s1
  | some r =>
    if recSentinel r then adel s1 "recurrence_pattern"
    else if !(isValidRecurrence r) then adel s1 "recurrence_pattern"
    else s1

/-- CRITICAL FIX 3 of `validate_add_task`: priority validation, with the
`"none"` default when absent. -/
def addFix3 (s2 : Args) : Args :=
  match aget s2 "priority" with
  | some p => if !(isValidPriority p) then aset s2 "priority" (.str "none") else s2
  | none => aset s2 "priority" (.str "none")

/-- CRITICAL FIX 3 of `validate_update_task`: priority validation (no
default when absent). -/
def updFix3 (s2 : Args) : Args :=
  match aget s2 "priority" with
  | some p => if !(isValidPriority p) then aset s2 "priority" (.str "none") else s2
  | none => s2

/-- CRITICAL FIX 4 (identical lines in both validators): due_date
normalisation. -/
def fixDueDate (s3 : Args) : Args :=
  match aget s3 "due_date" with
  | some d => if truthy d then aset s3 "due_date" (validateIsoDateV d) else s3
  | none => s3

/-- CRITICAL FIX 5 (identical lines in both validators): tags validation. -/
def fixTags (s4 : Args) : Except String Args :=
  match aget s4 "tags" with
  | some (.vlist xs) => (filterTags xs).bind fun ys => .ok (aset s4 "tags" (.vlist ys))
  | some _ => .ok (aset s4 "tags" (.vlist []))
  | none => .ok s4

/-- CRITICAL FIX 6 of `validate_add_task`: remove null values. -/
def addFix6 (s5 : Args) : Args := s5.filter (fun p => notNull p.2)

/-- `ToolValidator.validate_add_task` (also the module-level convenience
function `validate_add_task`). -/
def validate_add_task (args : Args) (userMessage : String) : Except String Args :=
  (addFix1 args userMessage).bind fun s1 =>
  (fixTags (fixDueDate (addFix3 (addFix2 s1)))).bind fun s5 =>
  .ok (addFix6 s5)

/-- The optional update fields checked by `validate_update_task` FIX 2. -/
def updFields : List String := ["title", "description", "priority", "due_date", "tags"]

/-- One iteration of FIX 2 of `validate_update_task`: drop the field when its
value is null, the empty string, or the empty list. -/
def rmStep (acc : Args) (f : String) : Args :=
  match aget acc f with
  | some v => if isNullOrEmptyUpd v then adel acc f else acc
  | none => acc

/-- FIX 2 of `validate_update_task`: the loop over the five optional fields. -/
def removeNullEmpty (a : Args) : Args := updFields.foldl rmStep a

/-- CRITICAL FIX 1 of `validate_update_task`: task_id is required. -/
def updFix1 (args : Args) : Except String Args :=
  match aget args "task_id" with
  | none => .error "task_id is required for update_task"
  | some .null => .error "task_id is required for update_task"
  | some _ => .ok args

/-- `ToolValidator.validate_update_task` (also the module-level convenience
function `validate_update_task`). -/
def validate_update_task (args : Args) : Except String Args :=
  (updFix1 args).bind fun s1 =>
  fixTags (fixDueDate (updFix3 (removeNullEmpty s1)))

/-- `ToolValidator.detect_language`: Devanagari (हिंदी) beats Arabic-script
(اردو) beats the English default. -/
def detectLanguage (text : String) : String :=
  if text.data.any (fun c => 0x0900 ≤ c.toNat && c.toNat ≤ 0x097F) then "hindi"
  else if text.data.any (fun c => 0x0600 ≤ c.toNat && c.toNat ≤ 0x06FF) then "urdu"
  else "english"

/-- `ToolValidator.validate_language` (also the module-level convenience
function `validate_language`). -/
def validateLanguage (userMessage : String) : Bool × Option String :=
  if detectLanguage userMessage == "hindi" then
    (false, some "Sorry, Hindi is not supported. Please use English or Urdu (اردو).")
  else (true, none)

/-! ## `IntentClassifier` (intent_classifier.py) -/

/-- Needle is an initial segment of the haystack. -/
def startsWithL : List Char → List Char → Bool
  | [], _ => true
  | _ :: _, [] => false
  | n :: ns, h :: hs => n == h && startsWithL ns hs

/-- Python `needle in haystack` substring test. -/
def containsSub (hay needle : List Char) : Bool :=
  match hay with
  | [] => needle.isEmpty
  | _ :: t => startsWithL needle hay || containsSub t needle

/-- `needle in text` on strings. -/
def strIn (text needle : String) : Bool := containsSub text.data needle.data

/-- `IntentClassifier._contains_keywords`. -/
def containsKeywords (text : String) (keywords : List String) : Bool :=
  keywords.any (fun k => strIn text k)

/-- One-or-more characters satisfying `p` (`\s+`, `\d+`, `[:\s]+`):
consume them and return the remainder, or fail. -/
def takeSome (p : Char → Bool) : List Char → Option (List Char)
  | c :: rest => if p c then some (rest.dropWhile p) else none
  | [] => none

/-- Consume a literal. -/
def takeLit : List Char → List Char → Option (List Char)
  | [], rest => some rest
  | _ :: _, [] => none
  | n :: ns, c :: cs => if n == c then takeLit ns cs else none

/-- Consume an optional single character. -/
def takeOpt (ch : Char) : List Char → List Char
  | c :: cs => if c == ch then cs else c :: cs
  | [] => []

/-- `task\s+#?\d+` anchored at the start. -/
def patTaskNum (cs : List Char) : Bool :=
  (((takeLit "task".data cs).bind (takeSome isSpaceChar)).map (takeOpt '#')).bind
    (takeSome isDig) |>.isSome

/-- `task\s+id\s+\d+` anchored at the start. -/
def patTaskIdNum (cs : List Char) : Bool :=
  ((((takeLit "task".data cs).bind (takeSome isSpaceChar)).bind
    (takeLit "id".data)).bind (takeSome isSpaceChar)).bind (takeSome isDig) |>.isSome

/-- `id[:\s]+\d+` anchored at the start. -/
def patIdColonNum (cs : List Char) : Bool :=
  ((takeLit "id".data cs).bind (takeSome (fun c => c == ':' || isSpaceChar c))).bind
    (takeSome isDig) |>.isSome

/-- `#\d+` anchored at the start. -/
def patHashNum (cs : List Char) : Bool :=
  (takeLit "#".data cs).bind (takeSome isDig) |>.isSome

/-- Unanchored `re.search`: try the predicate at every suffix. -/
def anySuffix (p : List Char → Bool) : List Char → Bool
  | [] => p []
  | c :: cs => p (c :: cs) || anySuffix p cs

/-- `IntentClassifier._has_task_id` (the input is already lower-cased by
`classify`, making `re.IGNORECASE` moot). -/
def hasTaskId (text : String) : Bool :=
  anySuffix (fun cs => patTaskNum cs || patTaskIdNum cs || patIdColonNum cs || patHashNum cs)
    text.data

def ADD_TASK_KEYWORDS : List String :=
  ["add", "create", "new", "make", "remind", "remember", "schedule", "set",
   "buy", "call", "send", "write", "book", "plan", "organize",
   "banao", "banana", "yaad", "dilao", "karna", "karwana",
   "بنانا", "بناؤ", "یاد", "دلانا", "کرنا"]

def UPDATE_TASK_KEYWORDS : List String :=
  ["update", "change", "modify", "edit", "move", "reschedule", "shift", "postpone",
   "rename", "alter", "adjust",
   "badlo", "badalna", "tabdeel", "edit",
   "بدلنا", "بدلو", "تبدیل"]

def DELETE_TASK_KEYWORDS : List String :=
  ["delete", "remove", "cancel", "discard", "drop", "clear",
   "delete", "hatao", "khatam", "mitao",
   "ڈیلیٹ", "ہٹاؤ", "ختم", "مٹاؤ"]

def LIST_TASK_KEYWORDS : List String :=
  ["list", "show", "display", "view", "see", "get", "what", "fetch", "all",
   "dikhao", "dekho", "batao", "sab", "saray",
   "دکھاؤ", "دیکھو", "بتاؤ", "سب", "سارے"]

def COMPLETE_TASK_KEYWORDS : List String :=
  ["complete", "done", "finish", "mark", "tick", "check",
   "mukammal", "hogaya", "karliya", "khatam",
   "مکمل", "ہوگیا", "کرلیا", "ختم"]

def SEARCH_KEYWORDS : List String :=
  ["search", "find", "look", "where",
   "dhundo", "khojo", "talash",
   "ڈھونڈو", "کھوجو", "تلاش"]

/-- The inline guard of priority 1: explicit update keywords that override a
generic add keyword. -/
def UPDATE_OVERRIDE : List String := ["update", "change", "modify", "edit", "move", "reschedule"]

/-- The inline explicit-update list of priority 2 (same words, source order). -/
def UPDATE_EXPLICIT : List String := ["update", "change", "modify", "edit", "reschedule", "move"]

def ANALYTICS_KEYWORDS : List String :=
  ["stats", "statistics", "summary", "analytics", "how many", "count"]

def ACTION_VERBS : List String :=
  ["buy", "call", "send", "email", "write", "book", "pay", "clean", "fix"]

def LIST_GUARD : List String := ["show", "list", "what", "display"]

/-- `IntentClassifier.classify` (also the module-level `classify_intent`):
the eight-priority keyword cascade. -/
def classify (userMessage : String) : String :=
  let m := pyStrip (lowerStr userMessage)
  -- Priority 1: ADD_TASK unless an explicit update keyword overrides
  if containsKeywords m ADD_TASK_KEYWORDS && !(containsKeywords m UPDATE_OVERRIDE) then
    "ADD_TASK"
  -- Priority 2: UPDATE_TASK (task id mention or explicit update keywords)
  else if containsKeywords m UPDATE_TASK_KEYWORDS &&
            (hasTaskId m || containsKeywords m UPDATE_EXPLICIT) then
    "UPDATE_TASK"
  -- Priority 3..7
  else if containsKeywords m COMPLETE_TASK_KEYWORDS then "COMPLETE_TASK"
  else if containsKeywords m DELETE_TASK_KEYWORDS then "DELETE_TASK"
  else if containsKeywords m SEARCH_KEYWORDS then "SEARCH"
  else if containsKeywords m LIST_TASK_KEYWORDS then "LIST_TASKS"
  else if containsKeywords m ANALYTICS_KEYWORDS then "ANALYTICS"
  -- Priority 8: implicit ADD_TASK via action verbs, unless a listing word appears
  else if containsKeywords m ACTION_VERBS && !(containsKeywords m LIST_GUARD) then
    "ADD_TASK"
  else "UNCLEAR"

/-! ## Conversation/message store and the chat route (routes/chat.py, models.py)

Timestamps are abstract ticks (`Nat`); the database session is the explicit
list of rows. -/

/-- `models.Conversation`. -/
structure Conversation where
  id : Nat
  user_id : String
  created_at : Nat
  updated_at : Nat
deriving Repr, DecidableEq

/-- The audit-trail record `{"tool": ..., "args": ...}`. -/
structure ToolCall where
  tool : String
  args : Args

/-- `models.Message`. -/
structure DbMessage where
  id : Nat
  conversation_id : Nat
  user_id : String
  role : String
  content : String
  tool_calls : Option (List ToolCall)
  created_at : Nat

/-- `session.get(Conversation, cid)`: primary-key lookup. -/
def sessionGetConversation (convs : List Conversation) (cid : Nat) : Option Conversation :=
  convs.find? (fun c => c.id == cid)

/-- The `HTTPException`s the chat routes raise. -/
inductive ChatHttpError where
  | forbidden (detail : String)
  | notFound (detail : String)
  | internal (detail : String)
deriving Repr, DecidableEq

/-- Outcome of the conversation-load step of the chat endpoint. -/
inductive ConvLoad where
  | loaded (c : Conversation)
  | createNew
deriving Repr, DecidableEq

/-- Steps 1–2 of `chat` (routes/chat.py): the auth check and the
load-or-create of the conversation. `reqConvId` is
`request.conversation_id`; `some 0` is falsy in Python and therefore also
creates a fresh conversation. -/
def chatConversationStep (userId : String) (reqConvId : Option Nat) (authUserId : String)
    (convs : List Conversation) : Except ChatHttpError ConvLoad :=
  if !(userId == authUserId) then
    .error (.forbidden "Cannot access another user\u0027s chat")
  else
    match reqConvId with
    | some cid =>
      if cid ≠ 0 then
        match sessionGetConversation convs cid with
        | some conversation =>
          if !(conversation.user_id == userId) then
            .error (.notFound "Conversation not found")
          else .ok (.loaded conversation)
        | none => .error (.notFound "Conversation not found")
      else .ok .createNew
    | none => .ok .createNew

/-- Stable insertion into a list sorted by `created_at`. -/
def insByCreated (m : DbMessage) : List DbMessage → List DbMessage
  | [] => [m]
  | x :: xs => if x.created_at ≤ m.created_at then x :: insByCreated m xs else m :: x :: xs

/-- `ORDER BY created_at` (a stable sort on the timestamp). -/
def sortByCreated : List DbMessage → List DbMessage
  | [] => []
  | x :: xs => insByCreated x (sortByCreated xs)

/-- Step 3 of `chat`: the conversation history loaded from the database —
role and content only, ordered by `created_at`. -/
def loadConversationHistory (msgs : List DbMessage) (cid : Nat) : List (String × String) :=
  (sortByCreated (msgs.filter (fun m => m.conversation_id == cid))).map
    (fun m => (m.role, m.content))

/-- `get_conversation_messages` (routes/chat.py): auth check, ownership check,
then every message of the conversation in `created_at` order. -/
def getConversationMessages (userId : String) (conversationId : Nat) (authUserId : String)
    (convs : List Conversation) (msgs : List DbMessage) :
    Except ChatHttpError (List DbMessage) :=
  if !(userId == authUserId) then
    .error (.forbidden "Cannot access another user\u0027s messages")
  else
    match sessionGetConversation convs conversationId with
    | some conversation =>
      if !(conversation.user_id == userId) then
        .error (.notFound "Conversation not found")
      else
        .ok (sortByCreated (msgs.filter (fun m => m.conversation_id == conversationId)))
    | none => .error (.notFound "Conversation not found")

/-! ## MCP server (mcp_server.py)

`call_tool` runs against a `Session(engine)`; the engine becomes an explicit
task table plus an auto-increment counter and a clock tick. The five
HTTP-backed tools (`delete_task`, `search_tasks`, `schedule_reminder`,
`get_recurring_tasks`, `analytics_summary`) call the REST API through `httpx`;
that collaborator becomes an oracle function in the state. -/

/-- `models.Task` as the tools see it. Free-form columns keep the `Value`
that was inserted (SQLModel table models do not validate on construction). -/
structure Task where
  id : Int
  user_id : Value
  title : Value
  description : Value
  priority : Value
  tags : Value
  due_date : Option Value
  recurrence_pattern : Option String
  is_recurring : Bool
  completed : Bool
  created_at : Nat
  updated_at : Nat

/-- A REST call made by one of the HTTP-backed tools. -/
inductive ApiCall where
  | deleteTask (userId : Value) (taskId : Value)
  | searchTasks (userId : Value) (params : Args)
  | scheduleReminder (userId : Value) (body : Args)
  | getRecurring (userId : Value) (params : Args)
  | statsSummary (userId : Value)

/-- The outcome of a REST call: a JSON array of objects, a JSON object, an
HTTP error status (`raise_for_status`), or a transport exception. -/
inductive ApiResp where
  | okList (items : List Args)
  | okObj (body : Args)
  | statusError (code : Nat) (body : String)
  | exc (msg : String)

/-- The state `call_tool` runs against. -/
structure MCPState where
  tasks : List Task
  nextId : Int
  now : Nat
  http : ApiCall → ApiResp

/-- `mcp.types.TextContent` (the `type` field is always `"text"`). -/
structure TextContent where
  text : String

def MOJI_OK : String := "âœ…"           -- mojibake ✅ as stored in the source
def MOJI_BOX : String := "â¬œ"          -- mojibake ⬜
def MOJI_ERR : String := "âŒ"                -- mojibake ❌
def MOJI_PEN : String := "âœï¸"    -- mojibake ✏️
def MOJI_WARN : String := "âš ï¸"
def MOJI_BOLT : String := "âš¡"         -- mojibake ⚡
def MOJI_TAG : String := "ğŸ·ï¸"
def MOJI_BIN : String := "ğŸ—‘ï¸"
def MOJI_CHART : String := "ğŸ“Š"
def MOJI_UP : String := "ğŸ“ˆ"
def MOJI_CAL : String := "ğŸ“…"    -- mojibake 📅
def MOJI_LIST : String := "ğŸ“‹"   -- mojibake 📋
def MOJI_LOOP : String := "ğŸ”"         -- mojibake 🔁 / 🔍
def MOJI_BELL : String := "ğŸ””"   -- mojibake 🔔
def QUOTE : String := "\u0027"

/-- Python `repr` of a scalar (as `str(list)` renders the elements). -/
def pyReprAtom : Prim → String
  | .null => "None"
  | .str s => QUOTE ++ s ++ QUOTE
  | .int n => toString n
  | .bool b => if b then "True" else "False"

/-- Python `str()` of a scalar. -/
def pyStrP : Prim → String
  | .null => "None"
  | .str s => s
  | .int n => toString n
  | .bool b => if b then "True" else "False"

/-- Python `str()` of a value, as interpolated by the tools into their
status messages. -/
def pyStr : Value → String
  | .null => "None"
  | .str s => s
  | .int n => toString n
  | .bool b => if b then "True" else "False"
  | .vlist xs => "[" ++ String.intercalate ", " (xs.map pyReprAtom) ++ "]"
  | .obj _ => "..."

/-- `sep.join(xs)`: every element must be a string. Joining a plain string
iterates its characters; anything else raises. -/
def joinTags (sep : String) : Value → Except String String
  | .vlist xs =>
    (xs.mapM (fun v => (match v with
      | .str s => Except.ok s
      | _ => Except.error "sequence item: expected str instance" : Except String String))).map
      (String.intercalate sep)
  | .str s => .ok (String.intercalate sep (s.data.map (fun c => String.mk [c])))
  | _ => .error "can only join an iterable"

/-- How a tool body terminates abnormally: `httpx.HTTPStatusError` or any
other exception, with the state as committed so far. -/
inductive ToolFail where
  | httpStatus (code : Nat) (body : String) (st : MCPState)
  | exc (msg : String) (st : MCPState)

/-- `arguments[k]`: `KeyError` when absent (`str(KeyError(k))` is `'k'`). -/
def reqArg (a : Args) (k : String) (st : MCPState) : Except ToolFail Value :=
  match aget a k with
  | some v => .ok v
  | none => .error (.exc (QUOTE ++ k ++ QUOTE) st)

/-- `session.get(Task, task_id)`: integer primary-key lookup. -/
def taskById (tasks : List Task) (tid : Value) : Option Task :=
  match tid with
  | .int n => tasks.find? (fun t => t.id == n)
  | _ => none

/-- Replace the row with the given id (primary keys are unique). -/
def replaceTask (tasks : List Task) (tid : Int) (t' : Task) : List Task :=
  tasks.map (fun t => if t.id == tid then t' else t)

/-- The `add_task` body. -/
def toolAddTask (arguments : Args) (st : MCPState) :
    Except ToolFail (MCPState × List TextContent) := do
  let user_id := (aget arguments "user_id").getD .null
  let title ← reqArg arguments "title" st
  let description := (aget arguments "description").getD title
  let priority := (aget arguments "priority").getD (.str "none")
  let tags := (aget arguments "tags").getD (.vlist [])
  let due_date : Option Value :=
    match aget arguments "due_date" with
    | some d => if truthy d then some d else none
    | none => none
  let recurrence := (aget arguments "recurrence_pattern").getD .null
  let (recPat, isRec) : Option String × Bool :=
    if truthy recurrence then
      match recurrence with
      | .str r => if r == "daily" || r == "weekly" || r == "monthly" then (some r, true)
                  else (none, false)
      | _ => (none, false)
    else (none, false)
  let task : Task :=
    { id := st.nextId, user_id := user_id, title := title, description := description,
      priority := priority, tags := tags, due_date := due_date,
      recurrence_pattern := recPat, is_recurring := isRec, completed := false,
      created_at := st.now, updated_at := st.now }
  let st' : MCPState := { st with tasks := st.tasks ++ [task], nextId := st.nextId + 1 }
  -- message building happens after the commit
  let m := MOJI_OK ++ " Task created: " ++ QUOTE ++ pyStr task.title ++ QUOTE ++
    " (ID: " ++ toString task.id ++ ")"
  let m := m ++ (match task.due_date with
    | some d => if truthy d then "\n" ++ MOJI_CAL ++ " Due: " ++ pyStr d else ""
    | none => "")
  let m := m ++ (if truthy task.priority && !(vbeq task.priority (.str "none"))
    then "\n" ++ MOJI_BOLT ++ " Priority: " ++ pyStr task.priority else "")
  let m ← if truthy task.tags then
      match joinTags ", " task.tags with
      | .ok j => pure (m ++ "\n" ++ MOJI_TAG ++ " Tags: " ++ j)
      | .error e => throw (.exc e st')
    else pure m
  let m := m ++ (match task.recurrence_pattern with
    | some r => if !(r == "") then "\n" ++ MOJI_LOOP ++ " Recurring: " ++ r else ""
    | none => "")
  return (st', [⟨m⟩])

/-- One line of the `list_tasks` report. -/
def listTaskLine (t : Task) : Except String String := do
  let status := if t.completed then MOJI_OK else MOJI_BOX
  let m := status ++ " [" ++ toString t.id ++ "] " ++ pyStr t.title
  let m := m ++ (if truthy t.priority && !(vbeq t.priority (.str "none"))
    then " " ++ MOJI_BOLT ++ pyStr t.priority else "")
  let m := m ++ (match t.due_date with
    | some d => if truthy d then " " ++ MOJI_CAL ++ String.mk ((pyStr d).data.take 10) else ""
    | none => "")
  let m ← if truthy t.tags then
      match joinTags "," t.tags with
      | .ok j => pure (m ++ " " ++ MOJI_TAG ++ j)
      | .error e => throw e
    else pure m
  return m ++ "\n"

/-- The `list_tasks` body. -/
def toolListTasks (arguments : Args) (st : MCPState) :
    Except ToolFail (MCPState × List TextContent) := do
  let user_id := (aget arguments "user_id").getD .null
  let q0 := st.tasks.filter (fun t => vbeq t.user_id user_id)
  let statusArg := (aget arguments "status").getD .null
  let q1 :=
    if vbeq statusArg (.str "pending") then
      q0.filter (fun t => !t.completed)
    else if vbeq statusArg (.str "completed") then
      q0.filter (fun t => t.completed)
    else q0
  let q2 : List Task :=
    match aget arguments "priority" with
    | some p => if truthy p then q1.filter (fun t => vbeq t.priority p) else q1
    | none => q1
  let q3 : List Task :=
    match aget arguments "search" with
    | some (.str s) => if !(s == "") then q2.filter (fun t => strIn (pyStr t.title) s) else q2
    | some _ => q2
    | none => q2
  if q3.isEmpty then
    return (st, [⟨MOJI_LIST ++ " No tasks found"⟩])
  else
    let header := MOJI_LIST ++ " Found " ++ toString q3.length ++ " task(s):\n\n"
    let body ← q3.foldlM (fun acc t =>
      match listTaskLine t with
      | .ok line => .ok (acc ++ line)
      | .error e => .error (.exc e st)) ""
    return (st, [⟨header ++ body⟩])

/-- The `complete_task` body: the completion flag is toggled, not set. -/
def toolCompleteTask (arguments : Args) (st : MCPState) :
    Except ToolFail (MCPState × List TextContent) := do
  let user_id := (aget arguments "user_id").getD .null
  let task_id ← reqArg arguments "task_id" st
  match taskById st.tasks task_id with
  | none => return (st, [⟨MOJI_ERR ++ " Task " ++ pyStr task_id ++ " not found"⟩])
  | some task =>
    if !(vbeq task.user_id user_id) then
      return (st, [⟨MOJI_ERR ++ " Task " ++ pyStr task_id ++ " not found"⟩])
    else
      let task' := { task with completed := !task.completed, updated_at := st.now }
      let st' := { st with tasks := replaceTask st.tasks task.id task' }
      let status := if task'.completed then "completed" else "uncompleted"
      return (st', [⟨MOJI_OK ++ " Task " ++ QUOTE ++ pyStr task.title ++ QUOTE ++
        " marked as " ++ status⟩])

/-- The `delete_task` body (REST call). -/
def toolDeleteTask (arguments : Args) (st : MCPState) :
    Except ToolFail (MCPState × List TextContent) := do
  let user_id := (aget arguments "user_id").getD .null
  let task_id ← reqArg arguments "task_id" st
  match st.http (.deleteTask user_id task_id) with
  | .okList _ | .okObj _ =>
    return (st, [⟨MOJI_BIN ++ " Task " ++ pyStr task_id ++ " deleted successfully"⟩])
  | .statusError c b => throw (.httpStatus c b st)
  | .exc e => throw (.exc e st)

/-- The `update_task` body. -/
def toolUpdateTask (arguments : Args) (st : MCPState) :
    Except ToolFail (MCPState × List TextContent) := do
  let user_id := (aget arguments "user_id").getD .null
  let task_id ← reqArg arguments "task_id" st
  match taskById st.tasks task_id with
  | none => return (st, [⟨MOJI_ERR ++ " Task " ++ pyStr task_id ++ " not found"⟩])
  | some task =>
    if !(vbeq task.user_id user_id) then
      return (st, [⟨MOJI_ERR ++ " Task " ++ pyStr task_id ++ " not found"⟩])
    else
      let task := { task with title :=
        (match aget arguments "title" with
        | some v => if truthy v then v else task.title
        | none => task.title) }
      let task := { task with description :=
        (match aget arguments "description" with
        | some v => if notNull v then v else task.description
        | none => task.description) }
      let task := { task with priority :=
        (match aget arguments "priority" with
        | some v => if truthy v then v else task.priority
        | none => task.priority) }
      let task := { task with due_date :=
        (match aget arguments "due_date" with
        | some v => if truthy v then some v else task.due_date
        | none => task.due_date) }
      let task := { task with tags :=
        (match aget arguments "tags" with
        | some v => if truthy v then v else task.tags
        | none => task.tags) }
      let task' := { task with updated_at := st.now }
      let st' := { st with tasks := replaceTask st.tasks task'.id task' }
      return (st', [⟨MOJI_PEN ++ " Task " ++ QUOTE ++ pyStr task'.title ++ QUOTE ++
        " updated successfully"⟩])

/-- The `search_tasks` body (REST call). -/
def toolSearchTasks (arguments : Args) (st : MCPState) :
    Except ToolFail (MCPState × List TextContent) := do
  let user_id := (aget arguments "user_id").getD .null
  let query ← reqArg arguments "query" st
  let params : Args := [("q", query)]
  let params := match aget arguments "priority" with
    | some p => if truthy p then aset params "priority" p else params
    | none => params
  let params := match aget arguments "tags" with
    | some t => if truthy t then aset params "tags" t else params
    | none => params
  match st.http (.searchTasks user_id params) with
  | .statusError c b => throw (.httpStatus c b st)
  | .exc e => throw (.exc e st)
  | .okObj _ => throw (.exc "response is not a list" st)
  | .okList tasks =>
    if tasks.isEmpty then
      return (st, [⟨MOJI_LOOP ++ " No tasks found matching " ++ QUOTE ++ pyStr query ++ QUOTE⟩])
    else
      let header := MOJI_LOOP ++ " Found " ++ toString tasks.length ++
        " task(s) matching " ++ QUOTE ++ pyStr query ++ QUOTE ++ ":\n\n"
      let body ← tasks.foldlM (fun acc t => do
        let completed ← reqArg t "completed" st
        let tid ← reqArg t "id" st
        let title ← reqArg t "title" st
        let status := if truthy completed then MOJI_OK else MOJI_BOX
        pure (acc ++ status ++ " [" ++ pyStr tid ++ "] " ++ pyStr title ++ "\n")) ""
      return (st, [⟨header ++ body⟩])

/-- The `set_priority` body. -/
def toolSetPriority (arguments : Args) (st : MCPState) :
    Except ToolFail (MCPState × List TextContent) := do
  let user_id := (aget arguments "user_id").getD .null
  let task_id ← reqArg arguments "task_id" st
  let priority ← reqArg arguments "priority" st
  match taskById st.tasks task_id with
  | none => return (st, [⟨MOJI_ERR ++ " Task " ++ pyStr task_id ++ " not found"⟩])
  | some task =>
    if !(vbeq task.user_id user_id) then
      return (st, [⟨MOJI_ERR ++ " Task " ++ pyStr task_id ++ " not found"⟩])
    else
      let task' := { task with priority := priority, updated_at := st.now }
      let st' := { st with tasks := replaceTask st.tasks task.id task' }
      return (st', [⟨MOJI_BOLT ++ " Task " ++ QUOTE ++ pyStr task.title ++ QUOTE ++
        " priority set to " ++ pyStr priority⟩])

/-- First-occurrence deduplication standing in for `list(set(...))` (whose
iteration order is unspecified). -/
def dedupV : List Prim → List Prim
  | [] => []
  | v :: vs => v :: (dedupV vs).filter (fun w => !(pbeq w v))

/-- The `add_tags` body. -/
def toolAddTags (arguments : Args) (st : MCPState) :
    Except ToolFail (MCPState × List TextContent) := do
  let user_id := (aget arguments "user_id").getD .null
  let task_id ← reqArg arguments "task_id" st
  let new_tags ← reqArg arguments "tags" st
  match taskById st.tasks task_id with
  | none => return (st, [⟨MOJI_ERR ++ " Task " ++ pyStr task_id ++ " not found"⟩])
  | some task =>
    if !(vbeq task.user_id user_id) then
      return (st, [⟨MOJI_ERR ++ " Task " ++ pyStr task_id ++ " not found"⟩])
    else
      let current : Value := if truthy task.tags then task.tags else .vlist []
      let merged ← match current, new_tags with
        | .vlist c, .vlist n => pure (Value.vlist (dedupV (c ++ n)))
        | _, _ => throw (.exc "unsupported operand types for +" st)
      let task' := { task with tags := merged, updated_at := st.now }
      let st' := { st with tasks := replaceTask st.tasks task.id task' }
      match joinTags ", " new_tags with
      | .ok j =>
        return (st', [⟨MOJI_TAG ++ " Tags added to " ++ QUOTE ++ pyStr task.title ++ QUOTE ++
          ": " ++ j⟩])
      | .error e => throw (.exc e st')

/-- The `schedule_reminder` body (REST call). -/
def toolScheduleReminder (arguments : Args) (st : MCPState) :
    Except ToolFail (MCPState × List TextContent) := do
  let user_id := (aget arguments "user_id").getD .null
  let task_id ← reqArg arguments "task_id" st
  let reminder_time ← reqArg arguments "reminder_time" st
  match st.http (.scheduleReminder user_id
      [("task_id", task_id), ("scheduled_time", reminder_time),
       ("notification_type", .str "reminder")]) with
  | .okList _ | .okObj _ =>
    return (st, [⟨MOJI_BELL ++ " Reminder scheduled for " ++ pyStr reminder_time⟩])
  | .statusError c b => throw (.httpStatus c b st)
  | .exc e => throw (.exc e st)

/-- The `get_recurring_tasks` body (REST call). -/
def toolGetRecurring (arguments : Args) (st : MCPState) :
    Except ToolFail (MCPState × List TextContent) := do
  let user_id := (aget arguments "user_id").getD .null
  let params : Args :=
    match aget arguments "pattern" with
    | some p => if truthy p then [("pattern", p)] else []
    | none => []
  match st.http (.getRecurring user_id params) with
  | .statusError c b => throw (.httpStatus c b st)
  | .exc e => throw (.exc e st)
  | .okObj _ => throw (.exc "response is not a list" st)
  | .okList tasks =>
    if tasks.isEmpty then
      return (st, [⟨MOJI_LOOP ++ " No recurring tasks found"⟩])
    else
      let header := MOJI_LOOP ++ " Found " ++ toString tasks.length ++ " recurring task(s):\n\n"
      let body ← tasks.foldlM (fun acc t => do
        let pattern := (aget t "recurrence_pattern").getD (.str "unknown")
        let tid ← reqArg t "id" st
        let title ← reqArg t "title" st
        pure (acc ++ MOJI_LOOP ++ " [" ++ pyStr tid ++ "] " ++ pyStr title ++ " - " ++
          pyStr pattern ++ "\n")) ""
      return (st, [⟨header ++ body⟩])

/-- The `analytics_summary` body (REST call). -/
def toolAnalytics (arguments : Args) (st : MCPState) :
    Except ToolFail (MCPState × List TextContent) := do
  let user_id := (aget arguments "user_id").getD .null
  match st.http (.statsSummary user_id) with
  | .statusError c b => throw (.httpStatus c b st)
  | .exc e => throw (.exc e st)
  | .okList _ => throw (.exc "response is not an object" st)
  | .okObj stats =>
    let m := MOJI_CHART ++ " Task Analytics Summary:\n\n"
    let m := m ++ MOJI_LIST ++ " Total tasks: " ++ pyStr ((aget stats "total_tasks").getD (.int 0)) ++ "\n"
    let m := m ++ MOJI_OK ++ " Completed: " ++ pyStr ((aget stats "completed_tasks").getD (.int 0)) ++ "\n"
    let m := m ++ MOJI_BOX ++ " Pending: " ++ pyStr ((aget stats "pending_tasks").getD (.int 0)) ++ "\n"
    let m := m ++ MOJI_UP ++ " Completion rate: " ++ pyStr ((aget stats "completion_rate").getD (.int 0)) ++ "%\n"
    let breakdown := (aget stats "priority_breakdown").getD .null
    let m ← if truthy breakdown then
        match breakdown with
        | .obj kvs =>
          pure (kvs.foldl (fun acc p => acc ++ "  " ++ p.1 ++ ": " ++ pyStrP p.2 ++ "\n")
            (m ++ "\n" ++ MOJI_BOLT ++ " Priority breakdown:\n"))
        | _ => throw (.exc "items() on a non-dict" st)
      else pure m
    let overdue := (aget stats "overdue_tasks").getD .null
    let m := if truthy overdue then
        m ++ "\n" ++ MOJI_WARN ++ " Overdue tasks: " ++ pyStr overdue ++ "\n"
      else m
    return (st, [⟨m⟩])

/-- The dispatch of `call_tool`, before the surrounding `try`/`except`. -/
def callToolTry (name : String) (arguments : Args) (st : MCPState) :
    Except ToolFail (MCPState × List TextContent) :=
  if name == "add_task" then toolAddTask arguments st
  else if name == "list_tasks" then toolListTasks arguments st
  else if name == "complete_task" then toolCompleteTask arguments st
  else if name == "delete_task" then toolDeleteTask arguments st
  else if name == "update_task" then toolUpdateTask arguments st
  else if name == "search_tasks" then toolSearchTasks arguments st
  else if name == "set_priority" then toolSetPriority arguments st
  else if name == "add_tags" then toolAddTags arguments st
  else if name == "schedule_reminder" then toolScheduleReminder arguments st
  else if name == "get_recurring_tasks" then toolGetRecurring arguments st
  else if name == "analytics_summary" then toolAnalytics arguments st
  else .ok (st, [⟨MOJI_ERR ++ " Unknown tool: " ++ name⟩])

/-- `call_tool` (mcp_server.py): every exception is converted to an error
text by the `except httpx.HTTPStatusError` / `except Exception` handlers, so
the dispatcher always completes normally. -/
def callTool (name : String) (arguments : Args) (st : MCPState) :
    MCPState × List TextContent :=
  match callToolTry name arguments st with
  | .ok r => r
  | .error (.httpStatus code body st') =>
    (st', [⟨MOJI_ERR ++ " API Error (" ++ toString code ++ "): " ++ body⟩])
  | .error (.exc msg st') => (st', [⟨MOJI_ERR ++ " Error: " ++ msg⟩])

/-- The eleven registered tool names. -/
def TOOL_NAMES : List String :=
  ["add_task", "list_tasks", "complete_task", "delete_task", "update_task",
   "search_tasks", "set_priority", "add_tags", "schedule_reminder",
   "get_recurring_tasks", "analytics_summary"]

/-! ## The orchestrator (agent.py `run_agent`) -/

/-- One entry of the `messages` list sent to the chat-completion API. -/
structure ChatMsg where
  role : String
  content : String
  tool_call_id : Option String
deriving Repr, DecidableEq

/-- A tool call requested by the model (`arguments` already decoded from its
JSON string). -/
structure ToolCallReq where
  tcId : String
  name : String
  arguments : Args

/-- A chat-completion response: optional text content plus requested tool
calls (`[]` models both `None` and an empty list, which Python treats
alike). -/
structure ModelResponse where
  content : Option String
  toolCalls : List ToolCallReq

/-- The chat-completion client: both API calls in `run_agent` go through this
oracle; an `error` is an exception raised by the client. -/
abbrev LLM := List ChatMsg → Except String ModelResponse

def AGENT_INSTRUCTIONS : String :=
  "You are Evolution Todo Assistant. Help users manage tasks.\n\n" ++
  "Available tools:\n" ++
  "- add_task: Create new tasks\n" ++
  "- list_tasks: Show tasks (no parameters needed for all tasks)\n" ++
  "- complete_task: Mark task complete\n" ++
  "- delete_task: Delete task\n" ++
  "- update_task: Update task details\n\n" ++
  "Always respond in the same language as the user (English or Urdu)."

/-- The prompt assembled by `run_agent`: the fixed system instruction, the
last ten entries of the stored history (`conversation_history[-10:]`), then
the new user utterance. -/
def promptMessages (history : List (String × String)) (userMessage : String) : List ChatMsg :=
  ⟨"system", AGENT_INSTRUCTIONS, none⟩ ::
    ((history.drop (history.length - 10)).map (fun p => ⟨p.1, p.2, none⟩) ++
      [⟨"user", userMessage, none⟩])

/-- How the tool-execution loop of `run_agent` ends: the early `return` taken
when a validator raises (discarding the trail accumulated so far), or normal
completion with the extended message list and the audit trail. -/
inductive LoopOut where
  | validationErr (reply : String)
  | finished (msgs : List ChatMsg) (trail : List ToolCall)

/-- The `for tool_call in message.tool_calls` loop: inject the caller's
`user_id` (overwriting anything the model supplied), validate `add_task` /
`update_task` arguments, execute via `call_tool`, record the sanitized
arguments in the trail, and feed the result text back as a `tool` message. -/
def execToolCalls (userMessage userId : String) :
    List ToolCallReq → List ChatMsg → List ToolCall → MCPState → MCPState × LoopOut
  | [], msgs, trail, st => (st, .finished msgs trail)
  | tc :: rest, msgs, trail, st =>
    let args0 := aset tc.arguments "user_id" (.str userId)
    let vres : Except String Args :=
      if tc.name == "add_task" then validate_add_task args0 userMessage
      else if tc.name == "update_task" then validate_update_task args0
      else .ok args0
    match vres with
    | .error e => (st, .validationErr ("❌ Validation error: " ++ e))
    | .ok args =>
      let (st', res) := callTool tc.name args st
      let resultText := match res with
        | [] => "Done"
        | t :: _ => t.text
      execToolCalls userMessage userId rest
        (msgs ++ [⟨"tool", resultText, some tc.tcId⟩])
        (trail ++ [⟨tc.name, args⟩]) st'

/-- The body of `run_agent`'s `try` block, after the prompt has been
assembled. -/
def runAgentTry (llm : LLM) (messages : List ChatMsg) (userMessage userId : String)
    (st : MCPState) : MCPState × Except String (String × List ToolCall) :=
  match llm messages with
  | .error e => (st, .error e)
  | .ok resp =>
    let assistantResponse := resp.content.getD ""
    match resp.toolCalls with
    | [] => (st, .ok (assistantResponse, []))
    | tcs =>
      match execToolCalls userMessage userId tcs messages [] st with
      | (st', .validationErr reply) => (st', .ok (reply, []))
      | (st', .finished msgs' trail) =>
        match llm msgs' with
        | .error e => (st', .error e)
        | .ok final => (st', .ok (final.content.getD "", trail))

/-- `run_agent` (agent.py). The language gate short-circuits before any model
call; the intent classification is log-only and has no effect on the result;
the outer `except Exception` turns every escaped exception into a normal
reply, so the function never raises. -/
def runAgent (llm : LLM) (history : List (String × String)) (userMessage userId : String)
    (st : MCPState) : MCPState × (String × List ToolCall) :=
  match validateLanguage userMessage with
  | (false, some errorMessage) => (st, (errorMessage, []))
  | _ =>
    let messages := promptMessages history userMessage
    match runAgentTry llm messages userMessage userId st with
    | (st', .ok r) => (st', r)
    | (st', .error e) => (st', ("❌ Agent error: " ++ e, []))

/-- A concrete task used by the witnesses. -/
def sampleTask : Task :=
  { id := 3, user_id := Value.str "alice", title := Value.str "Milk",
    description := Value.str "d", priority := Value.str "none", tags := Value.vlist [],
    due_date := none, recurrence_pattern := none, is_recurring := false, completed := false,
    created_at := 0, updated_at := 0 }

/-- A concrete one-task store used by the witnesses. -/
def sampleState : MCPState :=
  { tasks := [sampleTask], nextId := 4, now := 7, http := fun _ => .exc "no network" }

/-! ## Dictionary lemmas -/

theorem aget_map_set_self {a : Args} {k : String} (v : Value) {w : Value}
    (h : aget a k = some w) :
    aget (a.map (fun p => if p.1 = k then (k, v) else p)) k = some v := by
  induction a with
  | nil => simp [aget] at h
  | cons p rest ih =>
    simp only [aget] at h
    by_cases hk : p.1 = k
    · rw [List.map_cons, if_pos hk]
      simp [aget]
    · rw [if_neg hk] at h
      rw [List.map_cons, if_neg hk]
      simp only [aget]
      rw [if_neg hk]
      exact ih h

theorem aget_map_set_ne (a : Args) {k k' : String} (v : Value) (h : k' ≠ k) :
    aget (a.map (fun p => if p.1 = k then (k, v) else p)) k' = aget a k' := by
  induction a with
  | nil => rfl
  | cons p rest ih =>
    by_cases hk : p.1 = k
    · rw [List.map_cons, if_pos hk]
      simp only [aget]
      rw [if_neg (Ne.symm h), if_neg (show ¬(p.1 = k') by rw [hk]; exact Ne.symm h)]
      exact ih
    · rw [List.map_cons, if_neg hk]
      simp only [aget]
      by_cases hk' : p.1 = k'
      · rw [if_pos hk', if_pos hk']
      · rw [if_neg hk', if_neg hk']
        exact ih

theorem aget_append_single_self {a : Args} {k : String} (v : Value)
    (h : aget a k = none) : aget (a ++ [(k, v)]) k = some v := by
  induction a with
  | nil => simp [aget]
  | cons p rest ih =>
    simp only [aget] at h
    by_cases hk : p.1 = k
    · rw [if_pos hk] at h; cases h
    · rw [if_neg hk] at h
      simp only [List.cons_append, aget]
      rw [if_neg hk]
      exact ih h

theorem aget_append_single_ne (a : Args) {k k' : String} (v : Value) (h : k' ≠ k) :
    aget (a ++ [(k, v)]) k' = aget a k' := by
  induction a with
  | nil =>
    simp only [List.nil_append, aget]
    rw [if_neg (Ne.symm h)]
  | cons p rest ih =>
    simp only [List.cons_append, aget]
    by_cases hk' : p.1 = k'
    · rw [if_pos hk', if_pos hk']
    · rw [if_neg hk', if_neg hk']
      exact ih

theorem aget_aset_self (a : Args) (k : String) (v : Value) :
    aget (aset a k v) k = some v := by
  unfold aset
  cases h : aget a k with
  | some w => exact aget_map_set_self v h
  | none => exact aget_append_single_self v h

theorem aget_aset_ne (a : Args) {k k' : String} (v : Value) (h : k' ≠ k) :
    aget (aset a k v) k' = aget a k' := by
  unfold aset
  cases hx : aget a k with
  | some w => exact aget_map_set_ne a v h
  | none => exact aget_append_single_ne a v h

theorem aget_adel_self (a : Args) (k : String) : aget (adel a k) k = none := by
  induction a with
  | nil => rfl
  | cons p rest ih =>
    simp only [adel, List.filter_cons]
    by_cases hk : p.1 = k
    · rw [if_neg (by simp [hk])]
      exact ih
    · rw [if_pos (by simp [hk])]
      simp only [aget]
      rw [if_neg hk]
      exact ih

theorem aget_adel_ne (a : Args) {k k' : String} (h : k' ≠ k) :
    aget (adel a k) k' = aget a k' := by
  induction a with
  | nil => rfl
  | cons p rest ih =>
    simp only [adel, List.filter_cons, aget]
    by_cases hk : p.1 = k
    · rw [if_neg (by simp [hk])]
      rw [if_neg (by rw [hk]; exact Ne.symm h)]
      exact ih
    · rw [if_pos (by simp [hk])]
      simp only [aget]
      by_cases hk' : p.1 = k'
      · rw [if_pos hk', if_pos hk']
      · rw [if_neg hk', if_neg hk']
        exact ih

theorem aget_filter_none {a : Args} {k : String} (q : String × Value → Bool)
    (h : aget a k = none) : aget (a.filter q) k = none := by
  induction a with
  | nil => rfl
  | cons p rest ih =>
    simp only [aget] at h
    by_cases hk : p.1 = k
    · rw [if_pos hk] at h; cases h
    · rw [if_neg hk] at h
      simp only [List.filter_cons]
      by_cases hq : q p
      · rw [if_pos (by simp [hq])]
        simp only [aget]
        rw [if_neg hk]
        exact ih h
      · rw [if_neg (by simp [hq])]
        exact ih h

theorem aget_filter_some {a : Args} {k : String} {v : Value} (q : String × Value → Bool)
    (h : aget a k = some v) (hq : q (k, v) = true) : aget (a.filter q) k = some v := by
  induction a with
  | nil => simp [aget] at h
  | cons p rest ih =>
    simp only [aget] at h
    by_cases hk : p.1 = k
    · rw [if_pos hk] at h
      injection h with h
      have hp : p = (k, v) := by
        obtain ⟨p1, p2⟩ := p
        simp only at hk h
        rw [hk, h]
      subst hp
      rw [List.filter_cons, if_pos hq]
      simp [aget]
    · rw [if_neg hk] at h
      simp only [List.filter_cons]
      by_cases hqp : q p
      · rw [if_pos (by simp [hqp])]
        simp only [aget]
        rw [if_neg hk]
        exact ih h
      · rw [if_neg (by simp [hqp])]
        exact ih h

theorem key_not_mem_of_aget_none {a : Args} {k : String} (h : aget a k = none) :
    ∀ q ∈ a, q.1 ≠ k := by
  induction a with
  | nil => simp
  | cons p rest ih =>
    simp only [aget] at h
    by_cases hk : p.1 = k
    · rw [if_pos hk] at h; cases h
    · rw [if_neg hk] at h
      intro q hq
      rcases List.mem_cons.mp hq with rfl | hq
      · exact hk
      · exact ih h q hq

theorem map_set_id {l : Args} {k : String} {v : Value} (h : ∀ q ∈ l, q.1 ≠ k) :
    l.map (fun p => if p.1 = k then (k, v) else p) = l := by
  induction l with
  | nil => rfl
  | cons p rest ih =>
    rw [List.map_cons, if_neg (h p (List.mem_cons_self p rest)),
      ih (fun q hq => h q (List.mem_cons_of_mem p hq))]

theorem map_set_same {a : Args} {k : String} {v : Value} (hn : NodupKeys a)
    (h : aget a k = some v) :
    a.map (fun p => if p.1 = k then (k, v) else p) = a := by
  induction a with
  | nil => simp [aget] at h
  | cons p rest ih =>
    simp only [aget] at h
    simp only [NodupKeys, List.map_cons, List.nodup_cons] at hn
    by_cases hk : p.1 = k
    · rw [if_pos hk] at h
      injection h with h
      rw [List.map_cons, if_pos hk]
      have hrest : rest.map (fun p => if p.1 = k then (k, v) else p) = rest := by
        refine map_set_id (fun q hq he => ?_)
        exact absurd (by rw [hk, ← he]; exact List.mem_map_of_mem Prod.fst hq) hn.1
      rw [hrest]
      obtain ⟨p1, p2⟩ := p
      simp only at hk h
      rw [hk, h]
    · rw [if_neg hk] at h
      rw [List.map_cons, if_neg hk, ih hn.2 h]

/-- On a well-formed dict, assigning the value already present is a no-op. -/
theorem aset_same {a : Args} {k : String} {v : Value} (hn : NodupKeys a)
    (h : aget a k = some v) : aset a k v = a := by
  unfold aset
  rw [h]
  exact map_set_same hn h

theorem nodupKeys_aset {a : Args} (k : String) (v : Value) (hn : NodupKeys a) :
    NodupKeys (aset a k v) := by
  unfold aset
  cases h : aget a k with
  | some w =>
    have : (a.map (fun p => if p.1 = k then (k, v) else p)).map Prod.fst = a.map Prod.fst := by
      rw [List.map_map]
      refine List.map_congr_left (fun p _ => ?_)
      by_cases hk : p.1 = k
      · simp [hk]
      · simp [hk]
    unfold NodupKeys
    rw [this]
    exact hn
  | none =>
    unfold NodupKeys
    rw [List.map_append]
    simp only [List.map_cons, List.map_nil]
    rw [List.nodup_append]
    refine ⟨hn, List.nodup_singleton k, ?_⟩
    intro x hx hk'
    simp only [List.mem_singleton] at hk'
    subst hk'
    rcases List.mem_map.mp hx with ⟨q, hq, rfl⟩
    exact key_not_mem_of_aget_none h q hq rfl

theorem nodupKeys_adel {a : Args} (k : String) (hn : NodupKeys a) :
    NodupKeys (adel a k) := by
  unfold NodupKeys adel
  exact ((List.filter_sublist a).map Prod.fst).nodup hn

theorem nodupKeys_rmStep {a : Args} (f : String) (hn : NodupKeys a) :
    NodupKeys (rmStep a f) := by
  unfold rmStep
  cases aget a f with
  | some v =>
    by_cases h : isNullOrEmptyUpd v
    · simp only [h, if_pos]
      exact nodupKeys_adel f hn
    · simp only [h]
      simpa using hn
  | none => exact hn

theorem nodupKeys_removeNullEmpty {a : Args} (hn : NodupKeys a) :
    NodupKeys (removeNullEmpty a) := by
  unfold removeNullEmpty updFields
  simp only [List.foldl_cons, List.foldl_nil]
  exact nodupKeys_rmStep _ (nodupKeys_rmStep _ (nodupKeys_rmStep _
    (nodupKeys_rmStep _ (nodupKeys_rmStep _ hn))))

theorem aget_rmStep_self (a : Args) (f : String) :
    aget (rmStep a f) f =
      match aget a f with
      | some v => if isNullOrEmptyUpd v then none else some v
      | none => none := by
  unfold rmStep
  cases h : aget a f with
  | some v =>
    by_cases hv : isNullOrEmptyUpd v
    · simp only [hv, if_true]
      exact aget_adel_self a f
    · simp only [hv, if_false]
      exact h
  | none => exact h

theorem aget_rmStep_ne (a : Args) {f k : String} (h : k ≠ f) :
    aget (rmStep a f) k = aget a k := by
  unfold rmStep
  cases aget a f with
  | some v =>
    by_cases hv : isNullOrEmptyUpd v
    · simp only [hv, if_pos]
      exact aget_adel_ne a h
    · simp [hv]
  | none => rfl

/-- `rmStep` leaves the dict unchanged when the field is absent or its value
is not null/empty. -/
theorem rmStep_id {a : Args} {f : String}
    (h : ∀ v, aget a f = some v → isNullOrEmptyUpd v = false) : rmStep a f = a := by
  unfold rmStep
  cases hv : aget a f with
  | some v => simp [h v hv]
  | none => rfl

/-! ## Stability of the date normaliser -/

theorem mem_contains_char {l : List Char} {c : Char} (h : c ∈ l) : l.contains c = true :=
  List.elem_iff.mpr h

theorem checkDate10_shape {ds : List Char} (h : checkDate10 ds = true) :
    ∃ y1 y2 y3 y4 mo1 mo2 da1 da2,
      ds = [y1, y2, y3, y4, '-', mo1, mo2, '-', da1, da2] ∧
      isDig y1 = true ∧ isDig y2 = true ∧ isDig y3 = true ∧ isDig y4 = true ∧
      isDig mo1 = true ∧ isDig mo2 = true ∧ isDig da1 = true ∧ isDig da2 = true := by
  unfold checkDate10 at h
  split at h
  case h_1 y1 y2 y3 y4 s1 mo1 mo2 s2 da1 da2 =>
    simp only [Bool.and_eq_true, beq_iff_eq] at h
    obtain ⟨⟨⟨⟨⟨⟨⟨⟨⟨⟨⟨⟨⟨hy1, hy2⟩, hy3⟩, hy4⟩, hs1⟩, hs2⟩, hmo1⟩, hmo2⟩, hda1⟩, hda2⟩, _⟩, _⟩, _⟩, _⟩ := h
    subst hs1; subst hs2
    exact ⟨y1, y2, y3, y4, mo1, mo2, da1, da2, rfl, hy1, hy2, hy3, hy4, hmo1, hmo2, hda1, hda2⟩
  case h_2 => cases h

theorem checkDate10_len {ds : List Char} (h : checkDate10 ds = true) : ds.length = 10 := by
  obtain ⟨_, _, _, _, _, _, _, _, rfl, _⟩ := checkDate10_shape h
  rfl

theorem isDig_ne_Z {c : Char} (h : isDig c = true) : c ≠ 'Z' := by
  intro he
  subst he
  simp [isDig, Char.isDigit] at h

theorem checkDate10_noZ {ds : List Char} (h : checkDate10 ds = true) : 'Z' ∉ ds := by
  obtain ⟨y1, y2, y3, y4, mo1, mo2, da1, da2, rfl, h1, h2, h3, h4, h5, h6, h7, h8⟩ :=
    checkDate10_shape h
  intro hm
  simp only [List.mem_cons, List.not_mem_nil, or_false] at hm
  rcases hm with h' | h' | h' | h' | h' | h' | h' | h' | h' | h' <;>
    first
      | exact isDig_ne_Z (by assumption) h'.symm
      | exact absurd h'.symm (by decide)

theorem checkOffset_noZ {off : List Char} (h : checkOffsetChars off = true) : 'Z' ∉ off := by
  unfold checkOffsetChars at h
  split at h
  · simp
  case h_2 sg h1 h2 c m1 m2 =>
    simp only [Bool.and_eq_true, Bool.or_eq_true, beq_iff_eq] at h
    obtain ⟨⟨⟨⟨⟨⟨⟨hsg, hh1⟩, hh2⟩, hc⟩, hm1⟩, hm2⟩, _⟩, _⟩ := h
    subst hc
    intro hm
    simp only [List.mem_cons, List.not_mem_nil, or_false] at hm
    rcases hm with h' | h' | h' | h' | h' | h'
    · rcases hsg with rfl | rfl <;> exact absurd h' (by decide)
    · exact isDig_ne_Z hh1 h'.symm
    · exact isDig_ne_Z hh2 h'.symm
    · exact absurd h'.symm (by decide)
    · exact isDig_ne_Z hm1 h'.symm
    · exact isDig_ne_Z hm2 h'.symm
  case h_3 => cases h

theorem timeParts_shape {t hm sec off : List Char}
    (h : timeParts t = some (hm, sec, off)) :
    ∃ h1 h2 m1 m2 s1 s2,
      hm = [h1, h2, ':', m1, m2] ∧ sec = [':', s1, s2] ∧
      isDig h1 = true ∧ isDig h2 = true ∧ isDig m1 = true ∧ isDig m2 = true ∧
      isDig s1 = true ∧ isDig s2 = true ∧
      d2 h1 h2 < 24 ∧ d2 m1 m2 < 60 ∧ d2 s1 s2 < 60 ∧
      checkOffsetChars off = true := by
  unfold timeParts at h
  split at h
  case h_1 h1 h2 m1 m2 rest =>
    split at h
    case isTrue hcond =>
      simp only [Bool.and_eq_true, decide_eq_true_eq] at hcond
      obtain ⟨⟨⟨⟨⟨hd1, hd2⟩, hd3⟩, hd4⟩, hlt1⟩, hlt2⟩ := hcond
      split at h
      case h_1 s1 s2 rest2 =>
        split at h
        case isTrue hcond2 =>
          simp only [Bool.and_eq_true, decide_eq_true_eq] at hcond2
          obtain ⟨⟨⟨hs1, hs2⟩, hlt3⟩, hoff⟩ := hcond2
          simp only [Option.some.injEq, Prod.mk.injEq] at h
          obtain ⟨hhm, hsec, hoff'⟩ := h
          subst hhm; subst hsec; subst hoff'
          exact ⟨h1, h2, m1, m2, s1, s2, rfl, rfl, hd1, hd2, hd3, hd4, hs1, hs2,
            hlt1, hlt2, hlt3, hoff⟩
        case isFalse => cases h
      case h_2 hne =>
        split at h
        case isTrue hoff =>
          simp only [Option.some.injEq, Prod.mk.injEq] at h
          obtain ⟨hhm, hsec, hoff'⟩ := h
          subst hhm; subst hsec; subst hoff'
          exact ⟨h1, h2, m1, m2, '0', '0', rfl, rfl, hd1, hd2, hd3, hd4,
            by decide, by decide, hlt1, hlt2, by decide, hoff⟩
        case isFalse => cases h
    case isFalse => cases h
  case h_2 => cases h

theorem timeParts_canon {t hm sec off : List Char}
    (h : timeParts t = some (hm, sec, off)) :
    timeParts (hm ++ sec ++ off) = some (hm, sec, off) := by
  obtain ⟨h1, h2, m1, m2, s1, s2, rfl, rfl, hd1, hd2, hd3, hd4, hs1, hs2,
    hlt1, hlt2, hlt3, hoff⟩ := timeParts_shape h
  show timeParts (h1 :: h2 :: ':' :: m1 :: m2 :: ':' :: s1 :: s2 :: off) = _
  simp only [timeParts]
  rw [if_pos (by simp [hd1, hd2, hd3, hd4, hlt1, hlt2])]
  rw [if_pos (by simp [hs1, hs2, hlt3, hoff])]

theorem timeParts_noZ {t hm sec off : List Char}
    (h : timeParts t = some (hm, sec, off)) : 'Z' ∉ (hm ++ sec ++ off) := by
  obtain ⟨h1, h2, m1, m2, s1, s2, rfl, rfl, hd1, hd2, hd3, hd4, hs1, hs2,
    _, _, _, hoff⟩ := timeParts_shape h
  intro hm'
  simp only [List.cons_append, List.nil_append, List.mem_cons] at hm'
  rcases hm' with h' | h' | h' | h' | h' | h' | h' | h' | h'
  · exact isDig_ne_Z hd1 h'.symm
  · exact isDig_ne_Z hd2 h'.symm
  · exact absurd h'.symm (by decide)
  · exact isDig_ne_Z hd3 h'.symm
  · exact isDig_ne_Z hd4 h'.symm
  · exact absurd h'.symm (by decide)
  · exact isDig_ne_Z hs1 h'.symm
  · exact isDig_ne_Z hs2 h'.symm
  · exact checkOffset_noZ hoff h'

theorem replaceZ_id {cs : List Char} (h : 'Z' ∉ cs) : replaceZchars cs = cs := by
  induction cs with
  | nil => rfl
  | cons c rest ih =>
    simp only [List.mem_cons, not_or] at h
    unfold replaceZchars
    rw [if_neg (by simp only [beq_iff_eq]; exact fun he => h.1 he.symm), ih h.2]

/-- Structure of a `canonicalNoT` output: the original (valid) ten date
characters, a `T`, and a valid time suffix. -/
theorem canonicalNoT_shape {cs out : List Char} (h : canonicalNoT cs = some out) :
    ∃ tl, out = cs.take 10 ++ 'T' :: tl ∧ checkDate10 (cs.take 10) = true ∧
      (timeParts tl).isSome = true ∧ 'Z' ∉ tl := by
  unfold canonicalNoT at h
  split at h
  case isTrue hdate =>
    split at h
    case h_1 =>
      injection h with h
      subst h
      exact ⟨_, rfl, hdate, by decide, by decide⟩
    case h_2 sep t =>
      split at h
      case isTrue hsep =>
        split at h
        case h_1 hm sec off heq =>
          injection h with h
          subst h
          refine ⟨hm ++ sec ++ off, rfl, hdate, ?_, timeParts_noZ heq⟩
          rw [timeParts_canon heq]
          rfl
        case h_2 => cases h
      case isFalse => cases h
  case isFalse => cases h

theorem isoOK_of_canonical {cs out : List Char} (h : canonicalNoT cs = some out) :
    isoOKChars out = true := by
  obtain ⟨tl, rfl, hdate, htp, _⟩ := canonicalNoT_shape h
  have hlen : (cs.take 10).length = 10 := checkDate10_len hdate
  generalize hD : cs.take 10 = D at hdate hlen ⊢
  unfold isoOKChars
  rw [show (10 : Nat) = D.length from hlen.symm, List.take_left, List.drop_left]
  simp [hdate, htp]

theorem canonical_noZ {cs out : List Char} (h : canonicalNoT cs = some out) :
    'Z' ∉ out := by
  obtain ⟨tl, rfl, hdate, _, hnz⟩ := canonicalNoT_shape h
  intro hm
  rcases List.mem_append.mp hm with h' | h'
  · exact checkDate10_noZ hdate h'
  · rcases List.mem_cons.mp h' with h'' | h''
    · exact absurd h''.symm (by decide)
    · exact hnz h''

theorem canonical_hasT {cs out : List Char} (h : canonicalNoT cs = some out) :
    'T' ∈ out := by
  obtain ⟨tl, rfl, _, _, _⟩ := canonicalNoT_shape h
  exact List.mem_append.mpr (Or.inr (List.mem_cons_self _ _))

/-- The unfolding of `_validate_iso_date` at a string value. -/
theorem validateIsoDateV_str (s : String) :
    validateIsoDateV (.str s) =
      if !truthy (.str s) || dateSentinel (.str s) then .null
      else if hasCharT s then
        (if isoOKChars (replaceZchars s.data) then Value.str s else Value.null)
      else
        match canonicalNoT s.data with
        | some cs => Value.str (String.mk cs)
        | none => Value.null := by
  unfold validateIsoDateV
  by_cases hc : (!truthy (Value.str s) || dateSentinel (Value.str s)) = true
  · rw [if_pos hc]
  · rw [if_neg hc]

/-- A `canonicalNoT` output is a fixed point of `_validate_iso_date`. -/
theorem validateIsoDateV_canonical {s : String} {cs : List Char}
    (hc : canonicalNoT s.data = some cs) :
    validateIsoDateV (.str (String.mk cs)) = .str (String.mk cs) := by
  have hTmem : 'T' ∈ cs := canonical_hasT hc
  have hnz : 'Z' ∉ cs := canonical_noZ hc
  have hdata : (String.mk cs).data = cs := rfl
  have hnotlit : ∀ lit : String, 'T' ∉ lit.data → ¬(String.mk cs = lit) := by
    intro lit hlit he
    apply hlit
    rw [show lit.data = cs from by rw [← he]]
    exact hTmem
  rw [validateIsoDateV_str]
  rw [if_neg ?hcond]
  case hcond =>
    simp only [Bool.or_eq_true, Bool.not_eq_true', not_or, truthy, dateSentinel,
      Bool.not_eq_false', beq_iff_eq]
    exact ⟨hnotlit "" (by decide),
      ⟨hnotlit "null" (by decide), hnotlit "none" (by decide)⟩,
      hnotlit "" (by decide)⟩
  rw [if_pos (show hasCharT (String.mk cs) = true from mem_contains_char hTmem)]
  rw [hdata, replaceZ_id hnz, if_pos (isoOK_of_canonical hc)]

/-- The fixed-point property of `_validate_iso_date`: a non-null output is
left unchanged by a second normalisation. -/
theorem validateIsoDateV_stable {v w : Value} (h : validateIsoDateV v = w)
    (hw : w ≠ .null) : validateIsoDateV w = w := by
  unfold validateIsoDateV at h
  split at h
  · exact absurd h.symm hw
  case isFalse hcond =>
    split at h
    case h_1 s =>
      split at h
      case isTrue hT =>
        split at h
        case isTrue hok =>
          subst h
          rw [validateIsoDateV_str, if_neg hcond, if_pos hT, if_pos hok]
        case isFalse => exact absurd h.symm hw
      case isFalse hT =>
        split at h
        case h_1 cs hc =>
          subst h
          exact validateIsoDateV_canonical hc
        case h_2 => exact absurd h.symm hw
    case h_2 hne =>
      subst h
      cases v with
      | null => exact absurd rfl hw
      | str s => exact absurd rfl (hne s)
      | int n =>
        unfold validateIsoDateV
        rw [if_neg hcond]
      | bool b =>
        unfold validateIsoDateV
        rw [if_neg hcond]
      | vlist xs =>
        unfold validateIsoDateV
        rw [if_neg hcond]
      | obj xs =>
        unfold validateIsoDateV
        rw [if_neg hcond]

/-! ## Tag-filtering lemmas -/

theorem filterTags_mem {xs ys : List Prim} (h : filterTags xs = .ok ys) :
    ∀ t ∈ ys, ∃ s, t = .str s ∧ (s == "") = false ∧ (pyStrip s == "") = false := by
  induction xs generalizing ys with
  | nil =>
    simp only [filterTags, Except.ok.injEq] at h
    subst h
    simp
  | cons t ts ih =>
    unfold filterTags at h
    split at h
    case isTrue htr =>
      split at h
      case h_1 s =>
        cases hrest : filterTags ts with
        | error e => rw [hrest] at h; cases h
        | ok rest =>
          rw [hrest] at h
          simp only [Except.bind, Except.ok.injEq] at h
          subst h
          intro u hu
          by_cases hstrip : (pyStrip s == "") = true
          · rw [if_pos hstrip] at hu
            exact ih hrest u hu
          · rw [if_neg (by simpa using hstrip)] at hu
            rcases List.mem_cons.mp hu with rfl | hu
            · exact ⟨s, rfl, by simpa [ptruthy] using htr, by simpa using hstrip⟩
            · exact ih hrest u hu
      case h_2 => cases h
    case isFalse => exact ih h

theorem filterTags_of_good {ys : List Prim}
    (h : ∀ t ∈ ys, ∃ s, t = .str s ∧ (s == "") = false ∧ (pyStrip s == "") = false) :
    filterTags ys = .ok ys := by
  induction ys with
  | nil => rfl
  | cons t ts ih =>
    obtain ⟨s, rfl, hs, hstrip⟩ := h _ (List.mem_cons_self _ ts)
    unfold filterTags
    rw [if_pos (by simp [ptruthy, hs])]
    rw [ih (fun u hu => h u (List.mem_cons_of_mem _ hu))]
    simp [Except.bind, hstrip]

/-- Filtering is a projection: re-filtering a filtered tags list is the
identity. -/
theorem filterTags_fixpoint {xs ys : List Prim} (h : filterTags xs = .ok ys) :
    filterTags ys = .ok ys :=
  filterTags_of_good (filterTags_mem h)

theorem filterTags_total {xs : List Prim}
    (h : ∀ t ∈ xs, ptruthy t = false ∨ ∃ s, t = .str s) :
    ∃ ys, filterTags xs = .ok ys := by
  induction xs with
  | nil => exact ⟨[], rfl⟩
  | cons t ts ih =>
    obtain ⟨ys, hys⟩ := ih (fun u hu => h u (List.mem_cons_of_mem t hu))
    unfold filterTags
    rcases h t (List.mem_cons_self t ts) with htr | ⟨s, rfl⟩
    · rw [if_neg (by simp [htr])]
      exact ⟨ys, hys⟩
    · by_cases htr : ptruthy (.str s)
      · rw [if_pos htr, hys]
        exact ⟨_, rfl⟩
      · rw [if_neg htr]
        exact ⟨ys, hys⟩

/-! ## Task-table lemmas -/

theorem find?_task_cons (p : Task → Bool) (x : Task) (l : List Task) :
    (x :: l).find? p = if p x then some x else l.find? p := by
  by_cases h : p x
  · rw [List.find?_cons_of_pos _ h, if_pos h]
  · rw [List.find?_cons_of_neg _ (by simpa using h), if_neg (by simpa using h)]

theorem find?_replaceTask {tasks : List Task} {tid : Int} {t t' : Task}
    (h : tasks.find? (fun x => x.id == tid) = some t) (hid : t'.id = tid) :
    (replaceTask tasks tid t').find? (fun x => x.id == tid) = some t' := by
  induction tasks with
  | nil => simp [List.find?] at h
  | cons x rest ih =>
    rw [find?_task_cons] at h
    unfold replaceTask
    rw [List.map_cons]
    by_cases hx : (x.id == tid) = true
    · rw [if_pos hx]
      rw [find?_task_cons, if_pos (by simp [hid])]
    · rw [if_neg hx] at h ⊢
      rw [find?_task_cons, if_neg hx]
      exact ih h

theorem find?_eq_id {tasks : List Task} {tid : Int} {t : Task}
    (h : tasks.find? (fun x => x.id == tid) = some t) : t.id = tid := by
  have := List.find?_some h
  simpa using this

/-! ## C10: the complete_task tool toggles the completion flag -/

/-- One `complete_task` execution on a task owned by the caller: the flag is
flipped, `updated_at` is bumped, and the status message reports the new
state. -/
theorem completeTask_step (st : MCPState) (uid : String) (tid : Int) (t : Task)
    (hfind : st.tasks.find? (fun x => x.id == tid) = some t)
    (howner : t.user_id = .str uid) :
    callTool "complete_task" [("user_id", .str uid), ("task_id", .int tid)] st =
      ({ st with tasks := replaceTask st.tasks tid { t with completed := !t.completed, updated_at := st.now } },
       [⟨MOJI_OK ++ " Task " ++ QUOTE ++ pyStr t.title ++ QUOTE ++ " marked as " ++
         (if !t.completed then "completed" else "uncompleted")⟩]) := by
  have hid : t.id = tid := find?_eq_id hfind
  have hdisp : callTool "complete_task" [("user_id", .str uid), ("task_id", .int tid)] st =
      (match toolCompleteTask [("user_id", .str uid), ("task_id", .int tid)] st with
       | .ok r => r
       | .error (.httpStatus code body st') =>
         (st', [⟨MOJI_ERR ++ " API Error (" ++ toString code ++ "): " ++ body⟩])
       | .error (.exc msg st') => (st', [⟨MOJI_ERR ++ " Error: " ++ msg⟩])) := rfl
  have hbody : toolCompleteTask [("user_id", .str uid), ("task_id", .int tid)] st =
      (match st.tasks.find? (fun x => x.id == tid) with
       | none => .ok (st, [⟨MOJI_ERR ++ " Task " ++ pyStr (.int tid) ++ " not found"⟩])
       | some task =>
         if !(vbeq task.user_id (Value.str uid)) then
           .ok (st, [⟨MOJI_ERR ++ " Task " ++ pyStr (.int tid) ++ " not found"⟩])
         else
           .ok ({ st with tasks := replaceTask st.tasks task.id { task with completed := !task.completed, updated_at := st.now } },
             [⟨MOJI_OK ++ " Task " ++ QUOTE ++ pyStr task.title ++ QUOTE ++ " marked as " ++
               (if !task.completed then "completed" else "uncompleted")⟩])) := rfl
  rw [hdisp, hbody, hfind]
  simp only [howner, vbeq, beq_self_eq_true, Bool.not_true, Bool.false_eq_true, if_false, hid]

/-- C10: complete_task toggles rather than sets completion — executing it on
a task owned by the caller flips the task's completed flag (so a completed
task becomes pending again), and executing it twice restores the original
completion status. -/
theorem claim_C10_complete_task_toggles (st : MCPState) (uid : String) (tid : Int) (t : Task)
    (hfind : st.tasks.find? (fun x => x.id == tid) = some t)
    (howner : t.user_id = .str uid) :
    (((callTool "complete_task" [("user_id", .str uid), ("task_id", .int tid)] st).1.tasks.find?
        (fun x => x.id == tid)).map (fun x => x.completed) = some (!t.completed)) ∧
    ((((callTool "complete_task" [("user_id", .str uid), ("task_id", .int tid)]
          (callTool "complete_task" [("user_id", .str uid), ("task_id", .int tid)] st).1).1).tasks.find?
        (fun x => x.id == tid)).map (fun x => x.completed) = some t.completed) := by
  have hid : t.id = tid := find?_eq_id hfind
  set t1 : Task := { t with completed := !t.completed, updated_at := st.now } with ht1
  have h1 := completeTask_step st uid tid t hfind howner
  have hfind1 : ((callTool "complete_task" [("user_id", .str uid), ("task_id", .int tid)] st).1).tasks.find?
      (fun x => x.id == tid) = some t1 := by
    rw [h1]
    exact find?_replaceTask hfind hid
  constructor
  · rw [hfind1]
    rfl
  · have howner1 : t1.user_id = .str uid := howner
    have hid1 : t1.id = tid := hid
    have h2 := completeTask_step _ uid tid t1 hfind1 howner1
    rw [h2]
    have hfind2 := find?_replaceTask hfind1 hid1
    simp only [hfind2, Option.map_some]
    simp [ht1]
    exact ⟨_, find?_replaceTask hfind1 hid, rfl⟩

/-- C10 witness: a concrete pending task toggles to completed and back. -/
theorem claim_C10_witness :
    (((callTool "complete_task" [("user_id", .str "alice"), ("task_id", .int 3)] sampleState).1.tasks.find?
        (fun x => x.id == 3)).map (fun x => x.completed) = some true) ∧
    (((callTool "complete_task" [("user_id", .str "alice"), ("task_id", .int 3)]
        (callTool "complete_task" [("user_id", .str "alice"), ("task_id", .int 3)] sampleState).1).1.tasks.find?
          (fun x => x.id == 3)).map (fun x => x.completed) = some false) :=
  claim_C10_complete_task_toggles sampleState "alice" 3 sampleTask rfl rfl

/-! ## C9: unknown tool names -/

/-- C9 counterexample: a turn in which the model requests the unregistered
tool `fly_to_moon` completes normally — the dispatcher returns the
"Unknown tool" text as an ordinary result, the text is fed back to the model,
and the turn ends with a normal reply and the call recorded in the trail,
not with an UnknownToolError failure. -/
theorem claim_C9_counterexample :
    (runAgent
      (fun msgs => if msgs.any (fun m => m.role == "tool")
        then .ok ⟨some "done", []⟩
        else .ok ⟨none, [⟨"c1", "fly_to_moon", [("x", .int 1)]⟩]⟩)
      [] "do something" "u1"
      { tasks := [], nextId := 1, now := 0, http := fun _ => .exc "no network" }).2 =
    ("done", [⟨"fly_to_moon", [("x", .int 1), ("user_id", .str "u1")]⟩]) := rfl

/-- C9 amended: when `call_tool` is invoked with a name outside the fixed
catalogue of eleven operations it does not raise an UnknownToolError; it
completes normally, leaving the store untouched and returning the single
text `âŒ Unknown tool: <name>` (the mojibake ❌ prefix as stored in the
source), which the orchestrator treats like any other tool result. -/
theorem claim_C9_amended (name : String) (arguments : Args) (st : MCPState)
    (h : ¬ name ∈ TOOL_NAMES) :
    callTool name arguments st = (st, [⟨MOJI_ERR ++ " Unknown tool: " ++ name⟩]) := by
  simp only [TOOL_NAMES, List.mem_cons, List.not_mem_nil, or_false, not_or] at h
  obtain ⟨h1, h2, h3, h4, h5, h6, h7, h8, h9, h10, h11⟩ := h
  unfold callTool callToolTry
  rw [if_neg (by simpa using h1), if_neg (by simpa using h2), if_neg (by simpa using h3),
    if_neg (by simpa using h4), if_neg (by simpa using h5), if_neg (by simpa using h6),
    if_neg (by simpa using h7), if_neg (by simpa using h8), if_neg (by simpa using h9),
    if_neg (by simpa using h10), if_neg (by simpa using h11)]

/-- C9 witness: the amended theorem applied to the concrete name
`make_coffee` on an empty store. -/
theorem claim_C9_witness :
    callTool "make_coffee" [] { tasks := [], nextId := 1, now := 0, http := fun _ => .exc "x" } =
      ({ tasks := [], nextId := 1, now := 0, http := fun _ => .exc "x" },
       [⟨MOJI_ERR ++ " Unknown tool: make_coffee"⟩]) :=
  claim_C9_amended "make_coffee" []
    { tasks := [], nextId := 1, now := 0, http := fun _ => .exc "x" } (by decide)

/-! ## C3: errors do not propagate out of run_agent -/

/-- C3: a model-invocation error does not propagate out of `run_agent` as an
exception — the `except Exception` handler converts it into the normal reply
`❌ Agent error: ...` with an empty tool-call trail (evaluated here at the
failing input: a client that raises `Rate limit exceeded`). The same handler
also catches tool-execution errors, and the inner handler converts an
update-task validation error into the normal reply `❌ Validation error:
task_id is required for update_task`. -/
theorem claim_C3_errors_not_propagated :
    (runAgent (fun _ => .error "Rate limit exceeded") [] "Hello" "u1"
      { tasks := [], nextId := 1, now := 0, http := fun _ => .exc "down" }).2 =
      ("❌ Agent error: Rate limit exceeded", []) ∧
    (runAgent
      (fun msgs => if msgs.any (fun m => m.role == "tool")
        then .ok ⟨some "done", []⟩
        else .ok ⟨none, [⟨"c1", "update_task", [("title", .str "x")]⟩]⟩)
      [] "update it" "u1"
      { tasks := [], nextId := 1, now := 0, http := fun _ => .exc "down" }).2 =
      ("❌ Validation error: task_id is required for update_task", []) := ⟨rfl, rfl⟩

/-! ## C2: user isolation of conversation lookups -/

/-- C2: a conversation lookup scoped to the wrong user reports the
conversation as not found (HTTP 404) rather than returning another user's
data — both at the chat endpoint's conversation-load step and at the
messages endpoint. (`cid ≠ 0` because SQL primary keys start at 1; a zero
`conversation_id` is falsy in Python and means "create a new thread".) -/
theorem claim_C2_user_isolation (userA userB : String) (cid : Nat) (conv : Conversation)
    (convs : List Conversation) (msgs : List DbMessage)
    (hne : userA ≠ userB) (hcid : cid ≠ 0)
    (hfind : sessionGetConversation convs cid = some conv)
    (howner : conv.user_id = userB) :
    chatConversationStep userA (some cid) userA convs =
      .error (.notFound "Conversation not found") ∧
    getConversationMessages userA cid userA convs msgs =
      .error (.notFound "Conversation not found") := by
  have hub : (userB == userA) = false := by
    simp only [beq_eq_false_iff_ne]
    exact fun he => hne he.symm
  constructor
  · unfold chatConversationStep
    rw [if_neg (by simp)]
    simp [hcid, hfind, howner, hub]
  · unfold getConversationMessages
    rw [if_neg (by simp)]
    simp only [hfind, howner, hub]
    simp

/-! ## Stage lemmas for the validators -/

theorem aget_addFix1_ne {args : Args} {um : String} {s1 : Args} {k : String}
    (h : addFix1 args um = .ok s1) (hk : k ≠ "description") : aget s1 k = aget args k := by
  unfold addFix1 at h
  split at h
  · cases hg : generateDescription ((aget args "title").getD (.str "")) um with
    | error e => rw [hg] at h; cases h
    | ok d =>
      rw [hg] at h
      simp only [Except.bind, Except.ok.injEq] at h
      subst h
      exact aget_aset_ne args _ hk
  · injection h with h
    subst h
    rfl

theorem addFix2_of_none {s : Args} (h : aget s "recurrence_pattern" = none) :
    addFix2 s = s := by
  unfold addFix2
  rw [h]

theorem aget_addFix2_of_invalid {s : Args} {r : Value}
    (h : aget s "recurrence_pattern" = some r) (hv : isValidRecurrence r = false) :
    aget (addFix2 s) "recurrence_pattern" = none := by
  unfold addFix2
  simp only [h]
  by_cases hs : recSentinel r
  · rw [if_pos hs]
    exact aget_adel_self s _
  · rw [if_neg hs, if_pos (by simp [hv])]
    exact aget_adel_self s _

theorem valid_recurrence_not_sentinel {r : Value} (hv : isValidRecurrence r = true) :
    recSentinel r = false := by
  cases r with
  | str s =>
    simp only [isValidRecurrence, Bool.or_eq_true, beq_iff_eq] at hv
    rcases hv with (rfl | rfl) | rfl <;> rfl
  | null => simp [isValidRecurrence] at hv
  | int n => simp [isValidRecurrence] at hv
  | bool b => simp [isValidRecurrence] at hv
  | vlist xs => simp [isValidRecurrence] at hv
  | obj xs => simp [isValidRecurrence] at hv

theorem addFix2_of_valid {s : Args} {r : Value}
    (h : aget s "recurrence_pattern" = some r) (hv : isValidRecurrence r = true) :
    addFix2 s = s := by
  unfold addFix2
  simp only [h]
  rw [if_neg (by simp [valid_recurrence_not_sentinel hv]), if_neg (by simp [hv])]

theorem aget_addFix2_ne {s : Args} {k : String} (hk : k ≠ "recurrence_pattern") :
    aget (addFix2 s) k = aget s k := by
  unfold addFix2
  cases hx : aget s "recurrence_pattern" with
  | none => rfl
  | some r =>
    simp only [hx]
    by_cases hs : recSentinel r
    · rw [if_pos hs]
      exact aget_adel_ne s hk
    · rw [if_neg hs]
      by_cases hv : isValidRecurrence r
      · rw [if_neg (by simp [hv])]
      · rw [if_pos (by simp [hv])]
        exact aget_adel_ne s hk

theorem aget_addFix3_ne {s : Args} {k : String} (hk : k ≠ "priority") :
    aget (addFix3 s) k = aget s k := by
  unfold addFix3
  cases hx : aget s "priority" with
  | none => exact aget_aset_ne s _ hk
  | some p =>
    simp only [hx]
    by_cases hv : isValidPriority p
    · rw [if_neg (by simp [hv])]
    · rw [if_pos (by simp [hv])]
      exact aget_aset_ne s _ hk

theorem aget_updFix3_ne {s : Args} {k : String} (hk : k ≠ "priority") :
    aget (updFix3 s) k = aget s k := by
  unfold updFix3
  cases hx : aget s "priority" with
  | none => rfl
  | some p =>
    simp only [hx]
    by_cases hv : isValidPriority p
    · rw [if_neg (by simp [hv])]
    · rw [if_pos (by simp [hv])]
      exact aget_aset_ne s _ hk

theorem aget_fixDueDate_ne {s : Args} {k : String} (hk : k ≠ "due_date") :
    aget (fixDueDate s) k = aget s k := by
  unfold fixDueDate
  cases hx : aget s "due_date" with
  | none => rfl
  | some d =>
    simp only [hx]
    by_cases ht : truthy d
    · rw [if_pos ht]
      exact aget_aset_ne s _ hk
    · rw [if_neg ht]

theorem aget_fixTags_ne {s s5 : Args} {k : String} (h : fixTags s = .ok s5)
    (hk : k ≠ "tags") : aget s5 k = aget s k := by
  unfold fixTags at h
  split at h
  case h_1 xs heq =>
    cases hf : filterTags xs with
    | error e => rw [hf] at h; cases h
    | ok ys =>
      rw [hf] at h
      simp only [Except.bind, Except.ok.injEq] at h
      subst h
      exact aget_aset_ne s _ hk
  case h_2 =>
    injection h with h
    subst h
    exact aget_aset_ne s _ hk
  case h_3 =>
    injection h with h
    subst h
    rfl

theorem aget_rmAll_ne {s : Args} {k : String} (hk : ¬ k ∈ updFields) :
    aget (removeNullEmpty s) k = aget s k := by
  simp only [updFields, List.mem_cons, List.not_mem_nil, or_false, not_or] at hk
  obtain ⟨h1, h2, h3, h4, h5⟩ := hk
  show aget (rmStep (rmStep (rmStep (rmStep (rmStep s "title") "description") "priority") "due_date") "tags") k = aget s k
  rw [aget_rmStep_ne _ h5, aget_rmStep_ne _ h4, aget_rmStep_ne _ h3,
    aget_rmStep_ne _ h2, aget_rmStep_ne _ h1]

/-! ## C5: recurrence omission -/

/-- C5: for every create-task validation that returns, a recurrence value
that is absent, or present but outside `{daily, weekly, monthly}` (this
includes `null`, the empty string, and the strings `"null"`/`"none"`, none of
which are valid), leaves no `recurrence_pattern` key in the sanitized output;
a valid value is kept unchanged. -/
theorem claim_C5_recurrence_omission (args : Args) (userMessage : String) (out : Args)
    (hok : validate_add_task args userMessage = .ok out) :
    (aget args "recurrence_pattern" = none → aget out "recurrence_pattern" = none) ∧
    (∀ r, aget args "recurrence_pattern" = some r → isValidRecurrence r = false →
      aget out "recurrence_pattern" = none) ∧
    (∀ r, aget args "recurrence_pattern" = some r → isValidRecurrence r = true →
      aget out "recurrence_pattern" = some r) := by
  unfold validate_add_task at hok
  cases h1 : addFix1 args userMessage with
  | error e => rw [h1] at hok; cases hok
  | ok s1 =>
    rw [h1] at hok
    simp only [Except.bind] at hok
    cases h5 : fixTags (fixDueDate (addFix3 (addFix2 s1))) with
    | error e => rw [h5] at hok; cases hok
    | ok s5 =>
      rw [h5] at hok
      injection hok with hok
      subst hok
      have hrec1 : aget s1 "recurrence_pattern" = aget args "recurrence_pattern" :=
        aget_addFix1_ne h1 (by decide)
      have hchain : aget s5 "recurrence_pattern" = aget (addFix2 s1) "recurrence_pattern" := by
        rw [aget_fixTags_ne h5 (by decide), aget_fixDueDate_ne (by decide),
          aget_addFix3_ne (by decide)]
      refine ⟨?_, ?_, ?_⟩
      · intro habs
        have hs1 : aget s1 "recurrence_pattern" = none := hrec1.trans habs
        have h2 : aget (addFix2 s1) "recurrence_pattern" = none := by
          rw [addFix2_of_none hs1]; exact hs1
        exact aget_filter_none _ (hchain.trans h2)
      · intro r hr hv
        have h2 := aget_addFix2_of_invalid (hrec1.trans hr) hv
        exact aget_filter_none _ (hchain.trans h2)
      · intro r hr hv
        have hs1 : aget s1 "recurrence_pattern" = some r := hrec1.trans hr
        have h2 : aget (addFix2 s1) "recurrence_pattern" = some r := by
          rw [addFix2_of_valid hs1 hv]; exact hs1
        refine aget_filter_some _ (hchain.trans h2) ?_
        cases r <;> simp_all [isValidRecurrence, notNull]

/-- C2 witness: alice requesting bob's conversation 7 gets 404 from both
endpoints. -/
theorem claim_C2_witness :
    chatConversationStep "alice" (some 7) "alice"
      [{ id := 7, user_id := "bob", created_at := 0, updated_at := 0 }] =
      .error (.notFound "Conversation not found") ∧
    getConversationMessages "alice" 7 "alice"
      [{ id := 7, user_id := "bob", created_at := 0, updated_at := 0 }]
      [{ id := 1, conversation_id := 7, user_id := "bob", role := "user",
         content := "secret", tool_calls := none, created_at := 0 }] =
      .error (.notFound "Conversation not found") :=
  claim_C2_user_isolation "alice" "bob" 7
    { id := 7, user_id := "bob", created_at := 0, updated_at := 0 }
    [{ id := 7, user_id := "bob", created_at := 0, updated_at := 0 }]
    [{ id := 1, conversation_id := 7, user_id := "bob", role := "user",
       content := "secret", tool_calls := none, created_at := 0 }]
    (by decide) (by decide) rfl rfl


/-- C5 witness: a `"none"` recurrence on a concrete create request is dropped
from the sanitized output. -/
theorem claim_C5_witness :
    validate_add_task
        [("title", Value.str "walk dog"), ("recurrence_pattern", Value.str "none")] "" =
      .ok [("title", Value.str "walk dog"), ("description", Value.str "Task: walk dog"),
           ("priority", Value.str "none")] ∧
    aget [("title", Value.str "walk dog"), ("description", Value.str "Task: walk dog"),
          ("priority", Value.str "none")] "recurrence_pattern" = none :=
  ⟨rfl, (claim_C5_recurrence_omission
      [("title", Value.str "walk dog"), ("recurrence_pattern", Value.str "none")] ""
      [("title", Value.str "walk dog"), ("description", Value.str "Task: walk dog"),
       ("priority", Value.str "none")] rfl).2.1 (Value.str "none") rfl rfl⟩

/-! ## C8: the prompt assembled for the model call -/

/-- C8 counterexample: the prompt does not contain the full history — with
eleven persisted messages, `run_agent` keeps only `conversation_history[-10:]`,
so the prompt has 12 entries (system + 10 + user) and the oldest message is
absent from it. -/
theorem claim_C8_counterexample :
    ([("user","m0"),("user","m1"),("user","m2"),("user","m3"),("user","m4"),
      ("user","m5"),("user","m6"),("user","m7"),("user","m8"),("user","m9"),
      ("user","m10")] : List (String × String)).length = 11 ∧
    (promptMessages
      [("user","m0"),("user","m1"),("user","m2"),("user","m3"),("user","m4"),
       ("user","m5"),("user","m6"),("user","m7"),("user","m8"),("user","m9"),
       ("user","m10")] "new").length = 12 ∧
    ¬ (({ role := "user", content := "m0", tool_call_id := none } : ChatMsg) ∈
      promptMessages
        [("user","m0"),("user","m1"),("user","m2"),("user","m3"),("user","m4"),
         ("user","m5"),("user","m6"),("user","m7"),("user","m8"),("user","m9"),
         ("user","m10")] "new") := by
  refine ⟨rfl, rfl, ?_⟩
  simp [promptMessages, AGENT_INSTRUCTIONS]

/-- C8 (amended): the prompt is the fixed system instruction, then the last
ten history entries (role and content only — tool-call trails are never
replayed), then the new user utterance; its length is `min N 10 + 2`, every
entry of the retained suffix appears, and the full history appears exactly
when it holds at most ten messages. -/
theorem claim_C8_amended (history : List (String × String)) (um : String) :
    (promptMessages history um).length = min history.length 10 + 2 ∧
    (∀ p ∈ history.drop (history.length - 10),
      ({ role := p.1, content := p.2, tool_call_id := none } : ChatMsg) ∈
        promptMessages history um) ∧
    (history.length ≤ 10 →
      promptMessages history um =
        { role := "system", content := AGENT_INSTRUCTIONS, tool_call_id := none } ::
          (history.map (fun p =>
            ({ role := p.1, content := p.2, tool_call_id := none } : ChatMsg)) ++
            [{ role := "user", content := um, tool_call_id := none }])) := by
  refine ⟨?_, ?_, ?_⟩
  · simp only [promptMessages, List.length_cons, List.length_append, List.length_map,
      List.length_drop]
    simp only [List.length_cons, List.length_nil]
    omega
  · intro p hp
    simp only [promptMessages, List.mem_cons, List.mem_append, List.mem_map]
    exact Or.inr (Or.inl ⟨p, hp, rfl⟩)
  · intro h10
    unfold promptMessages
    rw [Nat.sub_eq_zero_of_le h10, List.drop_zero]

/-- C8 witness: a two-message history appears in the prompt in full. -/
theorem claim_C8_witness :
    promptMessages [("user", "hi"), ("assistant", "hello")] "next" =
      { role := "system", content := AGENT_INSTRUCTIONS, tool_call_id := none } ::
        ([("user", "hi"), ("assistant", "hello")].map (fun p =>
          ({ role := p.1, content := p.2, tool_call_id := none } : ChatMsg)) ++
          [{ role := "user", content := "next", tool_call_id := none }]) :=
  (claim_C8_amended [("user", "hi"), ("assistant", "hello")] "next").2.2 (by decide)

/-! ## C7: intent-classifier priority -/

theorem override_mem_update {k : String} (hk : k ∈ UPDATE_OVERRIDE) :
    k ∈ UPDATE_TASK_KEYWORDS ∧ k ∈ UPDATE_EXPLICIT := by
  fin_cases hk <;> exact ⟨by decide, by decide⟩

theorem guard_mem_list {k : String} (hk : k ∈ LIST_GUARD) : k ∈ LIST_TASK_KEYWORDS := by
  fin_cases hk <;> decide

theorem containsKeywords_mono {m : String} {ks1 ks2 : List String}
    (sub : ∀ k ∈ ks1, k ∈ ks2) (h : containsKeywords m ks1 = true) :
    containsKeywords m ks2 = true := by
  simp only [containsKeywords, List.any_eq_true] at h ⊢
  obtain ⟨k, hk, hs⟩ := h
  exact ⟨k, sub k hk, hs⟩

/-- C7 counterexample: delete keywords do not outrank a generic add keyword —
"delete the new task" matches both the delete family (`delete`) and the add
family (`new`), yet classifies as ADD_TASK, because the first branch only
yields to the six explicit update keywords. -/
theorem claim_C7_counterexample :
    containsKeywords (pyStrip (lowerStr "delete the new task")) DELETE_TASK_KEYWORDS = true ∧
    containsKeywords (pyStrip (lowerStr "delete the new task")) ADD_TASK_KEYWORDS = true ∧
    classify "delete the new task" = "ADD_TASK" := ⟨rfl, rfl, rfl⟩

/-- C7 (amended): the classifier resolves overlaps as follows — an explicit
update keyword (update/change/modify/edit/move/reschedule) always wins; an add
keyword with no such update keyword yields ADD_TASK regardless of any delete,
complete, or task-identifier mention; when no keyword family matches, an
action verb yields ADD_TASK (the listing guard being vacuous there) and
otherwise the result is UNCLEAR. -/
theorem claim_C7_amended (msg : String) :
    (containsKeywords (pyStrip (lowerStr msg)) UPDATE_OVERRIDE = true →
      classify msg = "UPDATE_TASK") ∧
    (containsKeywords (pyStrip (lowerStr msg)) ADD_TASK_KEYWORDS = true →
      containsKeywords (pyStrip (lowerStr msg)) UPDATE_OVERRIDE = false →
      classify msg = "ADD_TASK") ∧
    (containsKeywords (pyStrip (lowerStr msg)) ADD_TASK_KEYWORDS = false →
      containsKeywords (pyStrip (lowerStr msg)) UPDATE_TASK_KEYWORDS = false →
      containsKeywords (pyStrip (lowerStr msg)) COMPLETE_TASK_KEYWORDS = false →
      containsKeywords (pyStrip (lowerStr msg)) DELETE_TASK_KEYWORDS = false →
      containsKeywords (pyStrip (lowerStr msg)) SEARCH_KEYWORDS = false →
      containsKeywords (pyStrip (lowerStr msg)) LIST_TASK_KEYWORDS = false →
      containsKeywords (pyStrip (lowerStr msg)) ANALYTICS_KEYWORDS = false →
      (containsKeywords (pyStrip (lowerStr msg)) ACTION_VERBS = true →
        classify msg = "ADD_TASK") ∧
      (containsKeywords (pyStrip (lowerStr msg)) ACTION_VERBS = false →
        classify msg = "UNCLEAR")) := by
  refine ⟨?_, ?_, ?_⟩
  · intro hov
    have hupd := containsKeywords_mono (fun k hk => (override_mem_update hk).1) hov
    have hexp := containsKeywords_mono (fun k hk => (override_mem_update hk).2) hov
    simp [classify, hov, hupd, hexp]
  · intro hadd hov
    simp [classify, hadd, hov]
  · intro hadd hupd hcomp hdel hsearch hlist hana
    have hguard : containsKeywords (pyStrip (lowerStr msg)) LIST_GUARD = false := by
      cases hg : containsKeywords (pyStrip (lowerStr msg)) LIST_GUARD with
      | false => rfl
      | true => rw [containsKeywords_mono (fun k hk => guard_mem_list hk) hg] at hlist; cases hlist
    constructor
    · intro hact
      simp [classify, hadd, hupd, hcomp, hdel, hsearch, hlist, hana, hact, hguard]
    · intro hact
      simp [classify, hadd, hupd, hcomp, hdel, hsearch, hlist, hana, hact]

/-- C7 witness: the amended priority rules at four concrete utterances. -/
theorem claim_C7_witness :
    classify "please update something" = "UPDATE_TASK" ∧
    classify "add milk" = "ADD_TASK" ∧
    classify "pay rent" = "ADD_TASK" ∧
    classify "hmm" = "UNCLEAR" :=
  ⟨(claim_C7_amended "please update something").1 rfl,
   (claim_C7_amended "add milk").2.1 rfl rfl,
   ((claim_C7_amended "pay rent").2.2 rfl rfl rfl rfl rfl rfl rfl).1 rfl,
   ((claim_C7_amended "hmm").2.2 rfl rfl rfl rfl rfl rfl rfl).2 rfl⟩

/-! ## C6: description synthesis -/

theorem capitalizeStr_ne_empty {s : String} (h : s ≠ "") : capitalizeStr s ≠ "" := by
  unfold capitalizeStr
  cases hs : s.data with
  | nil => exact absurd (String.ext hs) h
  | cons c cs =>
    intro he
    have hd := congrArg String.data he
    simp [String.data] at hd

theorem task_prefix_ne (x : String) : ("Task: " ++ x) ≠ "" := by
  intro he
  have hd := congrArg String.data he
  rw [String.data_append] at hd
  exact absurd (List.append_eq_nil.mp hd).1 (by decide)

/-- `_generate_description` succeeds and yields a non-empty string whenever
the title is falsy or a string. -/
theorem generateDescription_spec (t : Value) (um : String)
    (hT : truthy t = false ∨ ∃ s, t = Value.str s) :
    ∃ d, generateDescription t um = Except.ok d ∧ d ≠ "" := by
  have hfb : ∃ d, ((Except.ok none : Except String (Option String)).bind fun fromTitle =>
      match fromTitle with
      | some d => Except.ok d
      | none =>
        if !(um == "") && stripNonempty um then
          let cleaned := REMOVE_KEYWORDS.foldl (fun acc kw => removeAll acc kw) (lowerStr um)
          let cleaned := pyStrip cleaned
          if !(cleaned == "") then Except.ok (capitalizeStr cleaned)
          else Except.ok "Task to be completed"
        else Except.ok "Task to be completed") = Except.ok d ∧ d ≠ "" := by
    simp only [Except.bind]
    by_cases h1 : (!(um == "") && stripNonempty um) = true
    · rw [if_pos h1]
      by_cases h2 : (!(pyStrip (REMOVE_KEYWORDS.foldl (fun acc kw => removeAll acc kw)
          (lowerStr um)) == "")) = true
      · rw [if_pos h2]
        exact ⟨_, rfl, capitalizeStr_ne_empty (by simpa using h2)⟩
      · rw [if_neg h2]
        exact ⟨_, rfl, by decide⟩
    · rw [if_neg h1]
      exact ⟨_, rfl, by decide⟩
  by_cases htr : truthy t = true
  · rcases hT with h | ⟨s, rfl⟩
    · rw [h] at htr; cases htr
    · have hred : generateDescription (Value.str s) um =
          ((if truthy (Value.str s) then
            (if pyStrip s == "" then Except.ok none
             else Except.ok (some ("Task: " ++ pyStrip s)))
           else Except.ok none : Except String (Option String)).bind fun fromTitle =>
            match fromTitle with
            | some d => Except.ok d
            | none =>
              if !(um == "") && stripNonempty um then
                let cleaned := REMOVE_KEYWORDS.foldl (fun acc kw => removeAll acc kw)
                  (lowerStr um)
                let cleaned := pyStrip cleaned
                if !(cleaned == "") then Except.ok (capitalizeStr cleaned)
                else Except.ok "Task to be completed"
              else Except.ok "Task to be completed") := rfl
      rw [hred, if_pos htr]
      by_cases hps : (pyStrip s == "") = true
      · rw [if_pos hps]
        exact hfb
      · rw [if_neg hps]
        exact ⟨_, rfl, task_prefix_ne _⟩
  · unfold generateDescription
    rw [if_neg htr]
    exact hfb

/-- `descMissing` being false pins down the description entry. -/
theorem descMissing_false {a : Args} (h : descMissing a = false)
    (hD : ∀ v, aget a "description" = some v → v = Value.null ∨ ∃ s, v = Value.str s) :
    ∃ s, aget a "description" = some (Value.str s) ∧ s ≠ "" := by
  unfold descMissing at h
  cases hx : aget a "description" with
  | none => rw [hx] at h; cases h
  | some v =>
    rw [hx] at h
    rcases hD v hx with rfl | ⟨s, rfl⟩
    · cases h
    · exact ⟨s, rfl, by simpa using h⟩

/-- FIX 1 of `validate_add_task` succeeds and leaves a non-empty string
description whenever title and description are well-shaped. -/
theorem addFix1_ok_description {args : Args} (um : String)
    (hT : ∀ v, aget args "title" = some v → truthy v = false ∨ ∃ s, v = Value.str s)
    (hD : ∀ v, aget args "description" = some v → v = Value.null ∨ ∃ s, v = Value.str s) :
    ∃ s1 d, addFix1 args um = Except.ok s1 ∧
      aget s1 "description" = some (Value.str d) ∧ d ≠ "" := by
  unfold addFix1
  by_cases hm : descMissing args = true
  · rw [if_pos hm]
    have hT' : truthy ((aget args "title").getD (Value.str "")) = false ∨
        ∃ s, (aget args "title").getD (Value.str "") = Value.str s := by
      cases hx : aget args "title" with
      | none => exact Or.inr ⟨"", rfl⟩
      | some v => simpa using hT v hx
    obtain ⟨d, hd, hne⟩ := generateDescription_spec _ um hT'
    rw [hd]
    exact ⟨_, d, rfl, aget_aset_self _ _ _, hne⟩
  · rw [if_neg hm]
    obtain ⟨s, hs, hne⟩ := descMissing_false (by simpa using hm) hD
    exact ⟨args, s, rfl, hs, hne⟩

/-- FIX 5 succeeds whenever the tags list (if present as a list) holds only
falsy or string elements. -/
theorem fixTags_ok {s : Args}
    (hG : ∀ xs, aget s "tags" = some (Value.vlist xs) →
      ∀ t ∈ xs, ptruthy t = false ∨ ∃ y, t = Prim.str y) :
    ∃ s5, fixTags s = Except.ok s5 := by
  unfold fixTags
  cases hx : aget s "tags" with
  | none => exact ⟨s, rfl⟩
  | some v =>
    cases v with
    | vlist xs =>
      obtain ⟨ys, hys⟩ := filterTags_total (hG xs hx)
      show ∃ s5, (filterTags xs).bind
        (fun ys => Except.ok (aset s "tags" (Value.vlist ys))) = Except.ok s5
      rw [hys]
      exact ⟨_, rfl⟩
    | null => exact ⟨_, rfl⟩
    | str a => exact ⟨_, rfl⟩
    | int a => exact ⟨_, rfl⟩
    | bool a => exact ⟨_, rfl⟩
    | obj a => exact ⟨_, rfl⟩

/-- C6 counterexample: the create-task validator can raise — a non-string
truthy title with a missing description reaches `title.strip()` inside
`_generate_description`, which raises `AttributeError`. -/
theorem claim_C6_counterexample :
    validate_add_task [("title", Value.int 5)] "" = .error "AttributeError" := rfl

/-- C6 (amended): when the title is falsy or a string, the description is
absent, null, or a string, and any tags list holds only falsy or string
elements, the create-task validator succeeds and its output carries a
non-empty string description (synthesized from the title, the keyword-cleaned
user message, or the generic placeholder when all are empty). -/
theorem claim_C6_amended (args : Args) (userMessage : String)
    (hT : ∀ v, aget args "title" = some v → truthy v = false ∨ ∃ s, v = Value.str s)
    (hD : ∀ v, aget args "description" = some v → v = Value.null ∨ ∃ s, v = Value.str s)
    (hG : ∀ xs, aget args "tags" = some (Value.vlist xs) →
      ∀ t ∈ xs, ptruthy t = false ∨ ∃ y, t = Prim.str y) :
    ∃ out d, validate_add_task args userMessage = Except.ok out ∧
      aget out "description" = some (Value.str d) ∧ d ≠ "" := by
  obtain ⟨s1, d, h1, hd1, hne⟩ := addFix1_ok_description userMessage hT hD
  have hd4 : aget (fixDueDate (addFix3 (addFix2 s1))) "description" = some (Value.str d) := by
    rw [aget_fixDueDate_ne (by decide), aget_addFix3_ne (by decide),
      aget_addFix2_ne (by decide)]
    exact hd1
  have hg4 : ∀ xs, aget (fixDueDate (addFix3 (addFix2 s1))) "tags" = some (Value.vlist xs) →
      ∀ t ∈ xs, ptruthy t = false ∨ ∃ y, t = Prim.str y := by
    intro xs hxs
    rw [aget_fixDueDate_ne (by decide), aget_addFix3_ne (by decide),
      aget_addFix2_ne (by decide), aget_addFix1_ne h1 (by decide)] at hxs
    exact hG xs hxs
  obtain ⟨s5, h5⟩ := fixTags_ok hg4
  have hd5 : aget s5 "description" = some (Value.str d) := by
    rw [aget_fixTags_ne h5 (by decide)]
    exact hd4
  refine ⟨addFix6 s5, d, ?_, ?_, hne⟩
  · unfold validate_add_task
    rw [h1]
    simp only [Except.bind]
    rw [h5]
  · exact aget_filter_some _ hd5 (by rfl)

/-- C6 witness: a title-less, description-less create request gets the
keyword-cleaned user message as its description. -/
theorem claim_C6_witness :
    ∃ out d, validate_add_task [("priority", Value.str "high")] "add buy milk" =
      Except.ok out ∧ aget out "description" = some (Value.str d) ∧ d ≠ "" :=
  claim_C6_amended [("priority", Value.str "high")] "add buy milk"
    (by intro v hv; cases hv) (by intro v hv; cases hv) (by intro xs hxs; cases hxs)

/-! ## C4: update-task sanitization -/

theorem updFix1_ok {a : Args} {v : Value} (h : aget a "task_id" = some v)
    (hv : v ≠ Value.null) : updFix1 a = .ok a := by
  unfold updFix1
  simp only [h]

theorem updFix1_char {a out : Args} (h : updFix1 a = .ok out) :
    out = a ∧ ∃ v, aget a "task_id" = some v ∧ v ≠ Value.null := by
  unfold updFix1 at h
  cases hx : aget a "task_id" with
  | none =>
    simp only [hx] at h
    exact Except.noConfusion h
  | some v =>
    simp only [hx] at h
    cases v with
    | null => cases h
    | str s => exact ⟨by injection h with h; exact h.symm, .str s, rfl, by simp⟩
    | int n => exact ⟨by injection h with h; exact h.symm, .int n, rfl, by simp⟩
    | bool b => exact ⟨by injection h with h; exact h.symm, .bool b, rfl, by simp⟩
    | vlist xs => exact ⟨by injection h with h; exact h.symm, .vlist xs, rfl, by simp⟩
    | obj xs => exact ⟨by injection h with h; exact h.symm, .obj xs, rfl, by simp⟩

theorem validate_update_pipeline {a out : Args} (hok : validate_update_task a = .ok out) :
    (∃ v, aget a "task_id" = some v ∧ v ≠ Value.null) ∧
    fixTags (fixDueDate (updFix3 (removeNullEmpty a))) = Except.ok out := by
  unfold validate_update_task at hok
  cases h1 : updFix1 a with
  | error e => rw [h1] at hok; cases hok
  | ok s1 =>
    rw [h1] at hok
    simp only [Except.bind] at hok
    obtain ⟨rfl, hv⟩ := updFix1_char h1
    exact ⟨hv, hok⟩

theorem aget_rmStep_gone {a : Args} {f : String}
    (h : aget a f = none ∨ ∃ v, aget a f = some v ∧ isNullOrEmptyUpd v = true) :
    aget (rmStep a f) f = none := by
  rw [aget_rmStep_self]
  rcases h with h | ⟨v, hv, he⟩
  · simp only [h]
  · simp only [hv, he, if_true]

theorem aget_rmStep_keep {a : Args} {f : String} {v : Value}
    (hv : aget a f = some v) (hne : isNullOrEmptyUpd v = false) :
    aget (rmStep a f) f = some v := by
  rw [aget_rmStep_self]
  simp only [hv, hne]
  rw [if_neg (by simp)]

theorem aget_rmStep_char (b : Args) (g : String) :
    aget (rmStep b g) g = none ∨
    ∃ v, aget (rmStep b g) g = some v ∧ isNullOrEmptyUpd v = false := by
  cases hx : aget b g with
  | none => exact Or.inl (aget_rmStep_gone (Or.inl hx))
  | some v =>
    by_cases hv : isNullOrEmptyUpd v = true
    · exact Or.inl (aget_rmStep_gone (Or.inr ⟨v, hx, hv⟩))
    · exact Or.inr ⟨v, aget_rmStep_keep hx (by simpa using hv), by simpa using hv⟩

theorem removeNullEmpty_show (a : Args) :
    removeNullEmpty a = rmStep (rmStep (rmStep (rmStep (rmStep a "title")
      "description") "priority") "due_date") "tags" := rfl

theorem aget_removeNullEmpty_gone {a : Args} {f : String} (hf : f ∈ updFields)
    (h : aget a f = none ∨ ∃ v, aget a f = some v ∧ isNullOrEmptyUpd v = true) :
    aget (removeNullEmpty a) f = none := by
  rw [removeNullEmpty_show]
  fin_cases hf
  · rw [aget_rmStep_ne _ (by decide), aget_rmStep_ne _ (by decide),
      aget_rmStep_ne _ (by decide), aget_rmStep_ne _ (by decide)]
    exact aget_rmStep_gone h
  · rw [aget_rmStep_ne _ (by decide), aget_rmStep_ne _ (by decide),
      aget_rmStep_ne _ (by decide)]
    refine aget_rmStep_gone ?_
    rw [aget_rmStep_ne _ (by decide)]
    exact h
  · rw [aget_rmStep_ne _ (by decide), aget_rmStep_ne _ (by decide)]
    refine aget_rmStep_gone ?_
    rw [aget_rmStep_ne _ (by decide), aget_rmStep_ne _ (by decide)]
    exact h
  · rw [aget_rmStep_ne _ (by decide)]
    refine aget_rmStep_gone ?_
    rw [aget_rmStep_ne _ (by decide), aget_rmStep_ne _ (by decide),
      aget_rmStep_ne _ (by decide)]
    exact h
  · refine aget_rmStep_gone ?_
    rw [aget_rmStep_ne _ (by decide), aget_rmStep_ne _ (by decide),
      aget_rmStep_ne _ (by decide), aget_rmStep_ne _ (by decide)]
    exact h

theorem aget_removeNullEmpty_keep {a : Args} {f : String} (hf : f ∈ updFields)
    {v : Value} (hv : aget a f = some v) (hne : isNullOrEmptyUpd v = false) :
    aget (removeNullEmpty a) f = some v := by
  rw [removeNullEmpty_show]
  fin_cases hf
  · rw [aget_rmStep_ne _ (by decide), aget_rmStep_ne _ (by decide),
      aget_rmStep_ne _ (by decide), aget_rmStep_ne _ (by decide)]
    exact aget_rmStep_keep hv hne
  · rw [aget_rmStep_ne _ (by decide), aget_rmStep_ne _ (by decide),
      aget_rmStep_ne _ (by decide)]
    refine aget_rmStep_keep ?_ hne
    rw [aget_rmStep_ne _ (by decide)]
    exact hv
  · rw [aget_rmStep_ne _ (by decide), aget_rmStep_ne _ (by decide)]
    refine aget_rmStep_keep ?_ hne
    rw [aget_rmStep_ne _ (by decide), aget_rmStep_ne _ (by decide)]
    exact hv
  · rw [aget_rmStep_ne _ (by decide)]
    refine aget_rmStep_keep ?_ hne
    rw [aget_rmStep_ne _ (by decide), aget_rmStep_ne _ (by decide),
      aget_rmStep_ne _ (by decide)]
    exact hv
  · refine aget_rmStep_keep ?_ hne
    rw [aget_rmStep_ne _ (by decide), aget_rmStep_ne _ (by decide),
      aget_rmStep_ne _ (by decide), aget_rmStep_ne _ (by decide)]
    exact hv

theorem aget_removeNullEmpty_char {a : Args} {f : String} (hf : f ∈ updFields) :
    aget (removeNullEmpty a) f = none ∨
    ∃ v, aget (removeNullEmpty a) f = some v ∧ isNullOrEmptyUpd v = false := by
  cases hx : aget a f with
  | none => exact Or.inl (aget_removeNullEmpty_gone hf (Or.inl hx))
  | some v =>
    by_cases hv : isNullOrEmptyUpd v = true
    · exact Or.inl (aget_removeNullEmpty_gone hf (Or.inr ⟨v, hx, hv⟩))
    · exact Or.inr ⟨v, aget_removeNullEmpty_keep hf hx (by simpa using hv), by simpa using hv⟩

theorem updFix3_of_none {s : Args} (h : aget s "priority" = none) : updFix3 s = s := by
  unfold updFix3
  rw [h]

theorem fixDueDate_of_none {s : Args} (h : aget s "due_date" = none) : fixDueDate s = s := by
  unfold fixDueDate
  rw [h]

theorem fixDueDate_of_nontruthy {s : Args} {d : Value} (h : aget s "due_date" = some d)
    (ht : truthy d = false) : fixDueDate s = s := by
  unfold fixDueDate
  simp only [h]
  rw [if_neg (by simp [ht])]

theorem fixDueDate_of_truthy {s : Args} {d : Value} (h : aget s "due_date" = some d)
    (ht : truthy d = true) : fixDueDate s = aset s "due_date" (validateIsoDateV d) := by
  unfold fixDueDate
  simp only [h]
  rw [if_pos ht]

theorem fixTags_of_none {s : Args} (h : aget s "tags" = none) : fixTags s = .ok s := by
  unfold fixTags
  rw [h]

theorem fixTags_of_vlist {s : Args} {xs ys : List Prim}
    (h : aget s "tags" = some (Value.vlist xs)) (hf : filterTags xs = .ok ys) :
    fixTags s = .ok (aset s "tags" (Value.vlist ys)) := by
  unfold fixTags
  simp only [h, hf]
  rfl

theorem aget_updFix3_char (s : Args) :
    aget (updFix3 s) "priority" = none ∨
    ∃ p, aget (updFix3 s) "priority" = some p ∧ isValidPriority p = true := by
  cases hx : aget s "priority" with
  | none =>
    rw [updFix3_of_none hx]
    exact Or.inl hx
  | some p =>
    by_cases hv : isValidPriority p = true
    · right
      refine ⟨p, ?_, hv⟩
      unfold updFix3
      simp only [hx]
      rw [if_neg (by simp [hv])]
      exact hx
    · right
      refine ⟨Value.str "none", ?_, by decide⟩
      unfold updFix3
      simp only [hx]
      rw [if_pos (by simp [Bool.not_eq_true] at hv ⊢; exact hv)]
      exact aget_aset_self s _ _

theorem fixDueDate_char (s : Args) :
    (fixDueDate s = s ∧ (aget s "due_date" = none ∨
       ∃ d, aget s "due_date" = some d ∧ truthy d = false)) ∨
    ∃ d, aget s "due_date" = some d ∧ truthy d = true ∧
      fixDueDate s = aset s "due_date" (validateIsoDateV d) := by
  cases hx : aget s "due_date" with
  | none => exact Or.inl ⟨fixDueDate_of_none hx, Or.inl rfl⟩
  | some d =>
    by_cases ht : truthy d = true
    · exact Or.inr ⟨d, rfl, ht, fixDueDate_of_truthy hx ht⟩
    · exact Or.inl ⟨fixDueDate_of_nontruthy hx (by simpa using ht),
        Or.inr ⟨d, rfl, by simpa using ht⟩⟩

theorem fixTags_char {s out : Args} (h : fixTags s = .ok out) :
    (out = s ∧ aget s "tags" = none) ∨
    ∃ ys, out = aset s "tags" (Value.vlist ys) ∧ filterTags ys = Except.ok ys := by
  cases hx : aget s "tags" with
  | none =>
    rw [fixTags_of_none hx] at h
    injection h with h
    exact Or.inl ⟨h.symm, rfl⟩
  | some v =>
    cases v with
    | vlist xs =>
      cases hf : filterTags xs with
      | error e =>
        unfold fixTags at h
        simp only [hx, hf, Except.bind] at h
        exact Except.noConfusion h
      | ok ys =>
        rw [fixTags_of_vlist hx hf] at h
        injection h with h
        exact Or.inr ⟨ys, h.symm, filterTags_fixpoint hf⟩
    | null =>
      unfold fixTags at h
      simp only [hx] at h
      injection h with h
      exact Or.inr ⟨[], h.symm, rfl⟩
    | str a =>
      unfold fixTags at h
      simp only [hx] at h
      injection h with h
      exact Or.inr ⟨[], h.symm, rfl⟩
    | int n =>
      unfold fixTags at h
      simp only [hx] at h
      injection h with h
      exact Or.inr ⟨[], h.symm, rfl⟩
    | bool b =>
      unfold fixTags at h
      simp only [hx] at h
      injection h with h
      exact Or.inr ⟨[], h.symm, rfl⟩
    | obj o =>
      unfold fixTags at h
      simp only [hx] at h
      injection h with h
      exact Or.inr ⟨[], h.symm, rfl⟩

theorem nodupKeys_updFix3 {s : Args} (hn : NodupKeys s) : NodupKeys (updFix3 s) := by
  unfold updFix3
  cases hx : aget s "priority" with
  | none => exact hn
  | some p =>
    simp only [hx]
    by_cases hv : isValidPriority p
    · rw [if_neg (by simp [hv])]
      exact hn
    · rw [if_pos (by simp [hv])]
      exact nodupKeys_aset _ _ hn

theorem nodupKeys_fixDueDate {s : Args} (hn : NodupKeys s) : NodupKeys (fixDueDate s) := by
  unfold fixDueDate
  cases hx : aget s "due_date" with
  | none => exact hn
  | some d =>
    simp only [hx]
    by_cases ht : truthy d
    · rw [if_pos ht]
      exact nodupKeys_aset _ _ hn
    · rw [if_neg ht]
      exact hn

theorem nodupKeys_fixTags {s out : Args} (h : fixTags s = .ok out) (hn : NodupKeys s) :
    NodupKeys out := by
  rcases fixTags_char h with ⟨rfl, _⟩ | ⟨ys, rfl, _⟩
  · exact hn
  · exact nodupKeys_aset _ _ hn

theorem validPriority_not_nullOrEmpty {p : Value} (h : isValidPriority p = true) :
    isNullOrEmptyUpd p = false := by
  cases p with
  | str s =>
    simp only [isValidPriority, Bool.or_eq_true, beq_iff_eq] at h
    rcases h with ((rfl | rfl) | rfl) | rfl <;> rfl
  | null => simp [isValidPriority] at h
  | int n => simp [isValidPriority] at h
  | bool b => simp [isValidPriority] at h
  | vlist xs => simp [isValidPriority] at h
  | obj xs => simp [isValidPriority] at h

theorem nullOrEmpty_false_ne_null {v : Value} (h : isNullOrEmptyUpd v = false) :
    v ≠ Value.null := by
  intro he
  subst he
  cases h

theorem aget_update_ne {a out : Args} (hok : validate_update_task a = .ok out)
    {k : String} (hk : ¬ k ∈ updFields) : aget out k = aget a k := by
  obtain ⟨_, hpipe⟩ := validate_update_pipeline hok
  have h1 : k ≠ "tags" := fun he => hk (he ▸ (by decide))
  have h2 : k ≠ "due_date" := fun he => hk (he ▸ (by decide))
  have h3 : k ≠ "priority" := fun he => hk (he ▸ (by decide))
  rw [aget_fixTags_ne hpipe h1, aget_fixDueDate_ne h2, aget_updFix3_ne h3, aget_rmAll_ne hk]

/-- The shape of every successful `validate_update_task` output. -/
theorem update_output_shape {a out : Args} (hn : NodupKeys a)
    (hok : validate_update_task a = .ok out) :
    NodupKeys out ∧
    (∃ v, aget out "task_id" = some v ∧ v ≠ Value.null) ∧
    (aget out "title" = none ∨
      ∃ v, aget out "title" = some v ∧ isNullOrEmptyUpd v = false) ∧
    (aget out "description" = none ∨
      ∃ v, aget out "description" = some v ∧ isNullOrEmptyUpd v = false) ∧
    (aget out "priority" = none ∨
      ∃ p, aget out "priority" = some p ∧ isValidPriority p = true) ∧
    (aget out "due_date" = none ∨ ∃ w, aget out "due_date" = some w ∧
      (truthy w = false ∨ ∃ d, validateIsoDateV d = w)) ∧
    (aget out "tags" = none ∨ ∃ ys, aget out "tags" = some (Value.vlist ys) ∧
      filterTags ys = Except.ok ys) := by
  obtain ⟨⟨v, hv, hvn⟩, hpipe⟩ := validate_update_pipeline hok
  have hne4 : ∀ k, k ≠ "tags" → aget out k = aget (fixDueDate (updFix3 (removeNullEmpty a))) k :=
    fun k hk => aget_fixTags_ne hpipe hk
  refine ⟨?_, ?_, ?_, ?_, ?_, ?_, ?_⟩
  · exact nodupKeys_fixTags hpipe (nodupKeys_fixDueDate (nodupKeys_updFix3
      (nodupKeys_removeNullEmpty hn)))
  · refine ⟨v, ?_, hvn⟩
    rw [aget_update_ne hok (by decide)]
    exact hv
  · have he : aget out "title" = aget (removeNullEmpty a) "title" := by
      rw [hne4 _ (by decide), aget_fixDueDate_ne (by decide), aget_updFix3_ne (by decide)]
    rw [he]
    exact aget_removeNullEmpty_char (by decide)
  · have he : aget out "description" = aget (removeNullEmpty a) "description" := by
      rw [hne4 _ (by decide), aget_fixDueDate_ne (by decide), aget_updFix3_ne (by decide)]
    rw [he]
    exact aget_removeNullEmpty_char (by decide)
  · have he : aget out "priority" = aget (updFix3 (removeNullEmpty a)) "priority" := by
      rw [hne4 _ (by decide), aget_fixDueDate_ne (by decide)]
    rw [he]
    exact aget_updFix3_char _
  · have he : aget out "due_date" = aget (fixDueDate (updFix3 (removeNullEmpty a))) "due_date" :=
      hne4 _ (by decide)
    rcases fixDueDate_char (updFix3 (removeNullEmpty a)) with ⟨heq, hin⟩ | ⟨d, hd, ht, heq⟩
    · rw [he, heq]
      rcases hin with h0 | ⟨d, hd, ht⟩
      · exact Or.inl h0
      · exact Or.inr ⟨d, hd, Or.inl ht⟩
    · rw [he, heq]
      exact Or.inr ⟨validateIsoDateV d, aget_aset_self _ _ _, Or.inr ⟨d, rfl⟩⟩
  · rcases fixTags_char hpipe with ⟨rfl, htag⟩ | ⟨ys, rfl, hys⟩
    · exact Or.inl htag
    · exact Or.inr ⟨ys, aget_aset_self _ _ _, hys⟩

/-- Any dict satisfying the strong output invariants is a fixed point of
`validate_update_task`. -/
theorem validate_update_fixpoint {y : Args} (hny : NodupKeys y)
    (h1 : ∃ v, aget y "task_id" = some v ∧ v ≠ Value.null)
    (h2 : ∀ f ∈ updFields, ∀ v, aget y f = some v → isNullOrEmptyUpd v = false)
    (h3 : aget y "priority" = none ∨
      ∃ p, aget y "priority" = some p ∧ isValidPriority p = true)
    (h4 : aget y "due_date" = none ∨ ∃ w, aget y "due_date" = some w ∧
      (truthy w = false ∨ validateIsoDateV w = w))
    (h5 : aget y "tags" = none ∨ ∃ ys, aget y "tags" = some (Value.vlist ys) ∧
      filterTags ys = Except.ok ys) :
    validate_update_task y = .ok y := by
  obtain ⟨v, hv, hvn⟩ := h1
  have hrm : removeNullEmpty y = y := by
    rw [removeNullEmpty_show]
    rw [rmStep_id (h2 "title" (by decide)), rmStep_id (h2 "description" (by decide)),
      rmStep_id (h2 "priority" (by decide)), rmStep_id (h2 "due_date" (by decide)),
      rmStep_id (h2 "tags" (by decide))]
  have hf3 : updFix3 y = y := by
    rcases h3 with h | ⟨p, hp, hvp⟩
    · exact updFix3_of_none h
    · unfold updFix3
      simp only [hp]
      rw [if_neg (by simp [hvp])]
  have hdd : fixDueDate y = y := by
    rcases h4 with h | ⟨w, hw, hcase⟩
    · exact fixDueDate_of_none h
    · by_cases ht : truthy w = true
      · rcases hcase with hfalse | hst
        · rw [ht] at hfalse; cases hfalse
        · rw [fixDueDate_of_truthy hw ht, hst]
          exact aset_same hny hw
      · exact fixDueDate_of_nontruthy hw (by simpa using ht)
  have htg : fixTags y = .ok y := by
    rcases h5 with h | ⟨ys, hys, hfix⟩
    · exact fixTags_of_none h
    · rw [fixTags_of_vlist hys hfix, aset_same hny hys]
  unfold validate_update_task
  rw [updFix1_ok hv hvn]
  simp only [Except.bind]
  rw [hrm, hf3, hdd]
  exact htg

/-- C4 counterexample: `validate_update_task` is not idempotent — an
unparsable due date is normalised to `null` on the first pass (so the output
carries an explicit null) and only the second pass removes the field, so
validating twice differs from validating once. -/
theorem claim_C4_counterexample :
    validate_update_task [("task_id", Value.int 1), ("due_date", Value.str "garbage")] =
      .ok [("task_id", Value.int 1), ("due_date", Value.null)] ∧
    validate_update_task [("task_id", Value.int 1), ("due_date", Value.null)] =
      .ok [("task_id", Value.int 1)] ∧
    [("task_id", Value.int 1), ("due_date", Value.null)] ≠
      ([("task_id", Value.int 1)] : Args) :=
  ⟨rfl, rfl, by decide⟩

/-- C4 (amended): for every argument dict (well-formed, as decoded JSON is)
accepted by `validate_update_task`, an optional field that is absent or
null/empty in the input never appears in the sanitized output; and the
validator is eventually idempotent — a twice-validated dict is a fixed point,
so a third application changes nothing (plain idempotence fails, see the
counterexample). -/
theorem claim_C4_amended (args z y : Args) (hn : NodupKeys args)
    (hz : validate_update_task args = .ok z) (hy : validate_update_task z = .ok y) :
    (∀ f ∈ updFields,
      (aget args f = none ∨ ∃ v, aget args f = some v ∧ isNullOrEmptyUpd v = true) →
      aget z f = none) ∧
    validate_update_task y = .ok y := by
  constructor
  · intro f hf hin
    obtain ⟨_, hpipe⟩ := validate_update_pipeline hz
    have hgone : aget (removeNullEmpty args) f = none := aget_removeNullEmpty_gone hf hin
    fin_cases hf
    · rw [aget_fixTags_ne hpipe (by decide), aget_fixDueDate_ne (by decide),
        aget_updFix3_ne (by decide)]
      exact hgone
    · rw [aget_fixTags_ne hpipe (by decide), aget_fixDueDate_ne (by decide),
        aget_updFix3_ne (by decide)]
      exact hgone
    · rw [aget_fixTags_ne hpipe (by decide), aget_fixDueDate_ne (by decide),
        updFix3_of_none hgone]
      exact hgone
    · have h3 : aget (updFix3 (removeNullEmpty args)) "due_date" = none := by
        rw [aget_updFix3_ne (by decide)]
        exact hgone
      rw [aget_fixTags_ne hpipe (by decide), fixDueDate_of_none h3]
      exact h3
    · have h4 : aget (fixDueDate (updFix3 (removeNullEmpty args))) "tags" = none := by
        rw [aget_fixDueDate_ne (by decide), aget_updFix3_ne (by decide)]
        exact hgone
      rw [fixTags_of_none h4] at hpipe
      injection hpipe with hpipe
      rw [← hpipe]
      exact h4
  · obtain ⟨hnz, htidz, httlz, hdscz, hpriz, hduez, htagz⟩ := update_output_shape hn hz
    obtain ⟨hny, htidy, httly, hdscy, hpriy, hduey0, htagy0⟩ := update_output_shape hnz hy
    obtain ⟨_, hpipe⟩ := validate_update_pipeline hy
    have hne4 : ∀ k, k ≠ "tags" →
        aget y k = aget (fixDueDate (updFix3 (removeNullEmpty z))) k :=
      fun k hk => aget_fixTags_ne hpipe hk
    have hdueS : aget y "due_date" = none ∨ ∃ w, aget y "due_date" = some w ∧
        isNullOrEmptyUpd w = false ∧ (truthy w = false ∨ validateIsoDateV w = w) := by
      have hgone : (aget z "due_date" = none ∨
          ∃ v, aget z "due_date" = some v ∧ isNullOrEmptyUpd v = true) →
          aget y "due_date" = none := by
        intro hcase
        have h2x : aget (removeNullEmpty z) "due_date" = none :=
          aget_removeNullEmpty_gone (by decide) hcase
        have h3x : aget (updFix3 (removeNullEmpty z)) "due_date" = none := by
          rw [aget_updFix3_ne (by decide)]
          exact h2x
        rw [hne4 _ (by decide), fixDueDate_of_none h3x]
        exact h3x
      rcases hduez with h0 | ⟨w, hw, hwp⟩
      · exact Or.inl (hgone (Or.inl h0))
      · by_cases hne : isNullOrEmptyUpd w = true
        · exact Or.inl (hgone (Or.inr ⟨w, hw, hne⟩))
        · have hne' : isNullOrEmptyUpd w = false := by simpa using hne
          have h2x : aget (removeNullEmpty z) "due_date" = some w :=
            aget_removeNullEmpty_keep (by decide) hw hne'
          have h3x : aget (updFix3 (removeNullEmpty z)) "due_date" = some w := by
            rw [aget_updFix3_ne (by decide)]
            exact h2x
          by_cases ht : truthy w = true
          · rcases hwp with hf | ⟨d, hdw⟩
            · rw [ht] at hf; cases hf
            · have hst : validateIsoDateV w = w :=
                validateIsoDateV_stable hdw (nullOrEmpty_false_ne_null hne')
              refine Or.inr ⟨w, ?_, hne', Or.inr hst⟩
              rw [hne4 _ (by decide), fixDueDate_of_truthy h3x ht, hst]
              exact aget_aset_self _ _ _
          · have ht' : truthy w = false := by simpa using ht
            refine Or.inr ⟨w, ?_, hne', Or.inl ht'⟩
            rw [hne4 _ (by decide), fixDueDate_of_nontruthy h3x ht']
            exact h3x
    have htagS : aget y "tags" = none ∨ ∃ zs, aget y "tags" = some (Value.vlist zs) ∧
        isNullOrEmptyUpd (Value.vlist zs) = false ∧ filterTags zs = Except.ok zs := by
      have hyS4 : aget (fixDueDate (updFix3 (removeNullEmpty z))) "tags" = none →
          aget y "tags" = none := by
        intro h4x
        rw [fixTags_of_none h4x] at hpipe
        injection hpipe with hpipe
        rw [← hpipe]
        exact h4x
      rcases htagz with h0 | ⟨zs, hzs, hfix⟩
      · refine Or.inl (hyS4 ?_)
        rw [aget_fixDueDate_ne (by decide), aget_updFix3_ne (by decide)]
        exact aget_removeNullEmpty_gone (by decide) (Or.inl h0)
      · by_cases he : isNullOrEmptyUpd (Value.vlist zs) = true
        · refine Or.inl (hyS4 ?_)
          rw [aget_fixDueDate_ne (by decide), aget_updFix3_ne (by decide)]
          exact aget_removeNullEmpty_gone (by decide) (Or.inr ⟨_, hzs, he⟩)
        · have he' : isNullOrEmptyUpd (Value.vlist zs) = false := by simpa using he
          have h4x : aget (fixDueDate (updFix3 (removeNullEmpty z))) "tags" =
              some (Value.vlist zs) := by
            rw [aget_fixDueDate_ne (by decide), aget_updFix3_ne (by decide)]
            exact aget_removeNullEmpty_keep (by decide) hzs he'
          rw [fixTags_of_vlist h4x hfix] at hpipe
          injection hpipe with hpipe
          rw [← hpipe]
          exact Or.inr ⟨zs, aget_aset_self _ _ _, he', hfix⟩
    have h2 : ∀ f ∈ updFields, ∀ v, aget y f = some v → isNullOrEmptyUpd v = false := by
      intro f hf
      fin_cases hf
      · rcases httly with h0 | ⟨v0, h0, hne0⟩
        · intro v hv; rw [h0] at hv; cases hv
        · intro v hv
          have hvv := h0.symm.trans hv
          injection hvv with hvv
          rw [← hvv]
          exact hne0
      · rcases hdscy with h0 | ⟨v0, h0, hne0⟩
        · intro v hv; rw [h0] at hv; cases hv
        · intro v hv
          have hvv := h0.symm.trans hv
          injection hvv with hvv
          rw [← hvv]
          exact hne0
      · rcases hpriy with h0 | ⟨p, h0, hvp⟩
        · intro v hv; rw [h0] at hv; cases hv
        · intro v hv
          have hvv := h0.symm.trans hv
          injection hvv with hvv
          rw [← hvv]
          exact validPriority_not_nullOrEmpty hvp
      · rcases hdueS with h0 | ⟨w, h0, hne0, _⟩
        · intro v hv; rw [h0] at hv; cases hv
        · intro v hv
          have hvv := h0.symm.trans hv
          injection hvv with hvv
          rw [← hvv]
          exact hne0
      · rcases htagS with h0 | ⟨zs, h0, hne0, _⟩
        · intro v hv; rw [h0] at hv; cases hv
        · intro v hv
          have hvv := h0.symm.trans hv
          injection hvv with hvv
          rw [← hvv]
          exact hne0
    have h4 : aget y "due_date" = none ∨ ∃ w, aget y "due_date" = some w ∧
        (truthy w = false ∨ validateIsoDateV w = w) := by
      rcases hdueS with h0 | ⟨w, h0, _, hp⟩
      · exact Or.inl h0
      · exact Or.inr ⟨w, h0, hp⟩
    have h5 : aget y "tags" = none ∨ ∃ ys, aget y "tags" = some (Value.vlist ys) ∧
        filterTags ys = Except.ok ys := by
      rcases htagS with h0 | ⟨zs, h0, _, hfix⟩
      · exact Or.inl h0
      · exact Or.inr ⟨zs, h0, hfix⟩
    exact validate_update_fixpoint hny htidy h2 hpriy h4 h5

/-- C4 witness: on a concrete update request with an empty title and a
garbage due date, the empty title is dropped from the first output, and the
twice-validated dict is a fixed point of the validator. -/
theorem claim_C4_witness :
    aget [("task_id", Value.int 1), ("due_date", Value.null)] "title" = none ∧
    validate_update_task [("task_id", Value.int 1)] = .ok [("task_id", Value.int 1)] :=
  ⟨(claim_C4_amended
      [("task_id", Value.int 1), ("due_date", Value.str "garbage"), ("title", Value.str "")]
      [("task_id", Value.int 1), ("due_date", Value.null)]
      [("task_id", Value.int 1)] (by unfold NodupKeys; decide) rfl rfl).1
      "title" (by decide) (Or.inr ⟨Value.str "", rfl, rfl⟩),
   (claim_C4_amended
      [("task_id", Value.int 1), ("due_date", Value.str "garbage"), ("title", Value.str "")]
      [("task_id", Value.int 1), ("due_date", Value.null)]
      [("task_id", Value.int 1)] (by unfold NodupKeys; decide) rfl rfl).2⟩

/-! ## C1: identity injection -/

theorem validate_add_preserves_user {args out : Args} {um u : String}
    (h : validate_add_task args um = .ok out)
    (hu : aget args "user_id" = some (Value.str u)) :
    aget out "user_id" = some (Value.str u) := by
  unfold validate_add_task at h
  cases h1 : addFix1 args um with
  | error e => rw [h1] at h; cases h
  | ok s1 =>
    rw [h1] at h
    simp only [Except.bind] at h
    cases h5 : fixTags (fixDueDate (addFix3 (addFix2 s1))) with
    | error e => rw [h5] at h; cases h
    | ok s5 =>
      rw [h5] at h
      injection h with h
      subst h
      have hs5 : aget s5 "user_id" = some (Value.str u) := by
        rw [aget_fixTags_ne h5 (by decide), aget_fixDueDate_ne (by decide),
          aget_addFix3_ne (by decide), aget_addFix2_ne (by decide),
          aget_addFix1_ne h1 (by decide)]
        exact hu
      exact aget_filter_some _ hs5 rfl

theorem execToolCalls_user_id (userMessage userId : String) :
    ∀ (tcs : List ToolCallReq) (msgs : List ChatMsg) (trail : List ToolCall) (st : MCPState),
    (∀ t ∈ trail, aget t.args "user_id" = some (Value.str userId)) →
    ∀ msgs' trail' st',
      execToolCalls userMessage userId tcs msgs trail st = (st', .finished msgs' trail') →
      ∀ t ∈ trail', aget t.args "user_id" = some (Value.str userId) := by
  intro tcs
  induction tcs with
  | nil =>
    intro msgs trail st hinv msgs' trail' st' hexec
    unfold execToolCalls at hexec
    injection hexec with h1 h2
    injection h2 with h2 h3
    subst h3
    exact hinv
  | cons tc rest ih =>
    intro msgs trail st hinv msgs' trail' st' hexec
    simp only [execToolCalls] at hexec
    cases hv : (if tc.name == "add_task" then
        validate_add_task (aset tc.arguments "user_id" (Value.str userId)) userMessage
      else if tc.name == "update_task" then
        validate_update_task (aset tc.arguments "user_id" (Value.str userId))
      else .ok (aset tc.arguments "user_id" (Value.str userId))) with
    | error e =>
      rw [hv] at hexec
      injection hexec with h1 h2
      exact LoopOut.noConfusion h2
    | ok args =>
      simp only [hv] at hexec
      have hargs : aget args "user_id" = some (Value.str userId) := by
        by_cases hadd : (tc.name == "add_task") = true
        · rw [if_pos hadd] at hv
          exact validate_add_preserves_user hv (aget_aset_self _ _ _)
        · rw [if_neg hadd] at hv
          by_cases hupd : (tc.name == "update_task") = true
          · rw [if_pos hupd] at hv
            rw [aget_update_ne hv (by decide)]
            exact aget_aset_self _ _ _
          · rw [if_neg hupd] at hv
            injection hv with hv
            rw [← hv]
            exact aget_aset_self _ _ _
      cases hct : callTool tc.name args st with
      | mk stc res =>
        simp only [hct] at hexec
        have hinv' : ∀ t ∈ trail ++ [⟨tc.name, args⟩],
            aget t.args "user_id" = some (Value.str userId) := by
          intro t ht
          rcases List.mem_append.mp ht with ht | ht
          · exact hinv t ht
          · rcases List.mem_singleton.mp ht with rfl
            exact hargs
        exact ih _ _ _ hinv' _ _ _ hexec

theorem runAgentTry_user_id (llm : LLM) (messages : List ChatMsg)
    (userMessage userId : String) (st : MCPState) :
    ∀ st' r, runAgentTry llm messages userMessage userId st = (st', .ok r) →
    ∀ t ∈ r.2, aget t.args "user_id" = some (Value.str userId) := by
  intro st' r h
  unfold runAgentTry at h
  cases hllm : llm messages with
  | error e =>
    rw [hllm] at h
    injection h with h1 h2
    exact Except.noConfusion h2
  | ok resp =>
    rw [hllm] at h
    cases hts : resp.toolCalls with
    | nil =>
      simp only [hts] at h
      injection h with h1 h2
      injection h2 with h2
      rw [← h2]
      simp
    | cons tc rest =>
      simp only [hts] at h
      cases hex : execToolCalls userMessage userId (tc :: rest) messages [] st with
      | mk stx lo =>
        simp only [hex] at h
        cases lo with
        | validationErr reply =>
          injection h with h1 h2
          injection h2 with h2
          rw [← h2]
          simp
        | finished msgsx trailx =>
          cases hllm2 : llm msgsx with
          | error e =>
            simp only [hllm2] at h
            injection h with h1 h2
            exact Except.noConfusion h2
          | ok final =>
            simp only [hllm2] at h
            injection h with h1 h2
            injection h2 with h2
            rw [← h2]
            exact execToolCalls_user_id userMessage userId (tc :: rest) messages [] st
              (by intro t ht; cases ht) _ _ _ hex

theorem runAgent_trail_sub (llm : LLM) (messages : List ChatMsg)
    (userMessage userId : String) (st : MCPState) :
    ∀ t ∈ (match runAgentTry llm messages userMessage userId st with
        | (st', Except.ok r) => (st', r)
        | (st', Except.error e) =>
          (st', "❌ Agent error: " ++ e, ([] : List ToolCall))).2.2,
      aget t.args "user_id" = some (Value.str userId) := by
  cases hrt : runAgentTry llm messages userMessage userId st with
  | mk stx res =>
    cases res with
    | ok r =>
      intro t ht
      exact runAgentTry_user_id llm messages userMessage userId st _ _ hrt t ht
    | error e => simp

/-- C1: for every tool call actually executed by `run_agent`, the arguments
recorded in the tool-call trail (the sanitized arguments passed to
`call_tool`) contain a `user_id` equal to the authenticated caller,
overwriting anything the model supplied, and the injected identifier survives
the add_task/update_task sanitization unchanged. -/
theorem claim_C1_user_id_injection (llm : LLM) (history : List (String × String))
    (userMessage userId : String) (st : MCPState) :
    ∀ t ∈ (runAgent llm history userMessage userId st).2.2,
      aget t.args "user_id" = some (Value.str userId) := by
  unfold runAgent
  cases hlv : validateLanguage userMessage with
  | mk b oe =>
    cases b with
    | false =>
      cases oe with
      | none => exact runAgent_trail_sub llm _ userMessage userId st
      | some errorMessage => simp
    | true =>
      cases oe with
      | none => exact runAgent_trail_sub llm _ userMessage userId st
      | some x => exact runAgent_trail_sub llm _ userMessage userId st

/-- C1 witness: in a concrete run where the model supplies a forged
`user_id` ("evil"), the recorded trail carries the caller identifier "u1". -/
theorem claim_C1_witness :
    aget (ToolCall.mk "add_task"
      [("title", Value.str "milk"), ("user_id", Value.str "u1"),
       ("description", Value.str "Task: milk"), ("priority", Value.str "none")]).args
      "user_id" = some (Value.str "u1") :=
  claim_C1_user_id_injection
    (fun ms => if ms.length == 2 then
        Except.ok ⟨none, [⟨"c1", "add_task",
          [("title", Value.str "milk"), ("user_id", Value.str "evil")]⟩]⟩
      else Except.ok ⟨some "done", []⟩)
    [] "add milk" "u1" sampleState
    (ToolCall.mk "add_task"
      [("title", Value.str "milk"), ("user_id", Value.str "u1"),
       ("description", Value.str "Task: milk"), ("priority", Value.str "none")])
    (by exact List.mem_singleton_self _)

end TodoChat
